import Mathlib

/-!
# go-gecko: the event pipeline (`pipeline.go`, `dispatcher.go`)

A shallow embedding of the interceptor stage, the driver stage, the output
stage, the input deliverer, the output deliverer and the start sequence of
`Pipeline`, followed by the properties of the specification stated on that
embedding.

Conventions of the embedding.

* A Go `error` is a value of `GoError`; a possibly nil error is `Option GoError`.
* A call of a user handler is a pure function from the session it receives to
  an `Effect`: what it left in the session's attribute bag and outbound message
  and how it completed (returned nil, returned an error, panicked).
* A stage returns a `Stage` record: the session as the stage left it, what the
  stage sent on `endChan`, the handler calls it made in order, the errors it
  logged, and how the worker ended.
* A channel is the list of the values sent on it, oldest first.
* A map is the list of its bindings; handlers write into the maps the session
  was built with, so a map is never nil.
* `sort.Sort` belongs to the Go library, not to the repository: the interceptor
  stage takes the routine as an argument, and what it needs of it is stated as
  `SortContract`; `sortSmall` is the routine the library of the repository's
  time runs on short slices.
* Logging that does not end the process is left out, except the errors the
  workers log.
* `Start` is the list of the calls it issues, in order: hooks, `OnStart` under
  the timeout guard, launches of `Serve`; hooks and `OnStart` return.
-/

namespace Gecko

/-! ## Errors -/

/-- Go `error` values that reach the pipeline. `interceptorDropped` is the
package variable `ErrInterceptorDropped`, which the pipeline recognises by
identity; `new` is a value made by `errors.New`; `withMessage` is what
`errors.WithMessage` of `github.com/pkg/errors` builds around a cause. -/
inductive GoError where
  | interceptorDropped : GoError
  | new (msg : String) : GoError
  | withMessage (cause : GoError) (msg : String) : GoError
  deriving DecidableEq, Repr

/-- The sentinel `ErrInterceptorDropped`. -/
def ErrInterceptorDropped : GoError := GoError.interceptorDropped

/-- Method `Error()`: the message of an error. `withMessage` prints its own
message, a colon and the message of the cause, as `pkg/errors` does. -/
def GoError.Error : GoError → String
  | .interceptorDropped => "InterceptorDropped"
  | .new msg => msg
  | .withMessage cause msg => msg ++ ": " ++ cause.Error

/-- Function `errors.New`. -/
def errorsNew (msg : String) : Option GoError := some (GoError.new msg)

/-- Function `errors.WithMessage` of `github.com/pkg/errors`: a nil error stays
nil, any other error is wrapped. -/
def errorsWithMessage (err : Option GoError) (message : String) : Option GoError :=
  match err with
  | none => none
  | some e => some (GoError.withMessage e message)

/-! ## Data model -/

/-- A value held in a `map[string]interface{}`. -/
inductive Value where
  | null : Value
  | bool (b : Bool) : Value
  | int (n : Int) : Value
  | str (s : String) : Value
  | duration (n : Nat) : Value
  deriving DecidableEq, Repr

/-- Type `JSONPacket`, a `map[string]interface{}`: the bindings of the map. -/
abbrev JSONPacket := List (String × Value)

/-- Map read `m[k]`. -/
def JSONPacket.get (m : JSONPacket) (k : String) : Option Value :=
  match m with
  | [] => none
  | (k', v) :: rest => if k' = k then some v else JSONPacket.get rest k

/-- Map write `m[k] = v`: the binding of `k` is replaced, or added. -/
def JSONPacket.put (m : JSONPacket) (k : String) (v : Value) : JSONPacket :=
  match m with
  | [] => [(k, v)]
  | (k', v') :: rest => if k' = k then (k, v) :: rest else (k', v') :: JSONPacket.put rest k v

/-- Raw bytes of a frame. -/
abbrev Bytes := List Nat

/-- Type `FramePacket`: `Data()` is the byte slice, nil when the frame carries
no payload. -/
structure FramePacket where
  Data : Option Bytes
  deriving DecidableEq, Repr

/-- Function `NewFramePacket`. -/
def NewFramePacket (frame : Bytes) : FramePacket := { Data := some frame }

/-- Type `Message`: a topic and its data. -/
structure Message where
  Topic : String
  Data : JSONPacket
  deriving DecidableEq, Repr

/-- Modelled from the spec: `Message.AddDataField` is not in the sources; it
adds the field to the data of the message. -/
def Message.AddDataField (m : Message) (key : String) (value : Value) : Message :=
  { m with Data := m.Data.put key value }

/-- Type `_EventSessionImpl`, with the fields of the literal in
`newInputDeliverer`. `outputChan` is the reply channel made with capacity 1:
the values sent on it so far. -/
structure EventSession where
  timestamp : Nat
  attributes : JSONPacket
  topic : String
  uuid : String
  inbound : Message
  outbound : Message
  outputChan : List JSONPacket
  deriving DecidableEq, Repr

/-- Method `Topic()`. -/
def EventSession.Topic (s : EventSession) : String := s.topic

/-- Method `Outbound()`. -/
def EventSession.Outbound (s : EventSession) : Message := s.outbound

/-- Modelled from the spec: `AddAttribute` is not in the sources; it binds the
key in the attribute bag of the session. -/
def EventSession.AddAttribute (s : EventSession) (k : String) (v : Value) : EventSession :=
  { s with attributes := s.attributes.put k v }

/-- Modelled from the spec: `Since` is not in the sources; it is the time
elapsed since `timestamp`, read on a clock that shows `clock`. -/
def EventSession.Since (s : EventSession) (clock : Nat) : Value :=
  Value.duration (clock - s.timestamp)

/-- The part of the context the pipeline reads: the fail-fast flag, the
verbose-log flag, and the reading of the clock. -/
structure Context where
  failFast : Bool
  logVerbose : Bool
  clock : Nat
  deriving DecidableEq, Repr

/-- Method `IsFailFastEnabled`. -/
def Context.IsFailFastEnabled (ctx : Context) : Bool := ctx.failFast

/-- The value a panic carries: an `error`, or anything else. -/
inductive PanicValue where
  | error (e : GoError) : PanicValue
  | other (text : String) : PanicValue
  deriving DecidableEq, Repr

/-- How a call of `Handle` completes: it returns nil, returns a non-nil error,
or panics. -/
inductive Outcome where
  | ok : Outcome
  | err (e : GoError) : Outcome
  | panic (r : PanicValue) : Outcome
  deriving DecidableEq, Repr

/-- What a call of `Handle` did: the attribute bag and the outbound message as
the handler left them, and how the call completed. The envelope of the session
(topic, uuid, timestamp, reply channel) is out of a handler's reach. -/
structure Effect where
  attributes : JSONPacket
  outbound : Message
  result : Outcome
  deriving DecidableEq, Repr

/-- The session after a handler has run on it. -/
def EventSession.after (s : EventSession) (e : Effect) : EventSession :=
  { s with attributes := e.attributes, outbound := e.outbound }

/-! ## Components -/

/-- Type `TopicExpr`: its method `matches` is not in the sources, a pattern is
taken as the predicate that method computes. -/
structure TopicExpr where
  «matches» : String → Bool

/-- Type `Interceptor`: `GetTopicExpr`, `GetPriority` and `Handle`; `name`
tells one component from another. -/
structure Interceptor where
  name : String
  topicExprs : List TopicExpr
  priority : Int
  Handle : EventSession → Context → Effect

/-- Type `InterceptorSlice`. -/
abbrev InterceptorSlice := List Interceptor

/-- Modelled from the spec: `InterceptorSlice.Less` is not in the sources; the
lower numeric priority comes earlier. -/
def InterceptorSlice.Less (a b : Interceptor) : Bool := decide (a.priority < b.priority)

/-- Type `OutputDevice`: its encoder, its `Process` and its decoder. A result
`(value, error)` with a non-nil error is `Except.error`. -/
structure OutputDevice where
  Encode : JSONPacket → Except GoError Bytes
  Process : Bytes → Context → Except GoError Bytes
  Decode : Bytes → Except GoError JSONPacket

/-- Type `OutputDeliverer`. -/
abbrev OutputDeliverer := String → JSONPacket → Option JSONPacket × Option GoError

/-- Type `Driver`: `GetTopicExpr` and `Handle`. -/
structure Driver where
  name : String
  topicExprs : List TopicExpr
  Handle : EventSession → OutputDeliverer → Context → Effect

/-- The part of `Pipeline` (with its embedded `Register`) that the data path
reads. `uuidOutputs` is the map from uuid to output device. -/
structure Pipeline where
  context : Context
  interceptors : List Interceptor
  drivers : List Driver
  uuidOutputs : List (String × OutputDevice)

/-- Map read `p.uuidOutputs[uuid]`. -/
def lookupOutput (m : List (String × OutputDevice)) (uuid : String) : Option OutputDevice :=
  match m with
  | [] => none
  | (k, d) :: rest => if k = uuid then some d else lookupOutput rest uuid

/-! ## Stage workers -/

/-- How a worker ends: its function returns, it returns after a deferred
`recover()` caught a panic, or the logger's `Fatal` ended the process. -/
inductive Exit where
  | returned : Exit
  | recovered : Exit
  | fatal : Exit
  deriving DecidableEq, Repr

/-- One call of `Handle`: the component called and what the call did. -/
structure Call (H : Type) where
  handler : H
  effect : Effect

/-- The observable result of a stage worker. -/
structure Stage (H : Type) where
  session : EventSession
  endChan : List EventSession
  calls : List (Call H)
  errors : List GoError
  exit : Exit

/-- A worker that has just received `session`. -/
def Stage.start (H : Type) (session : EventSession) : Stage H :=
  { session := session, endChan := [], calls := [], errors := [], exit := Exit.returned }

/-- The components called, in call order. -/
def Stage.invoked {H : Type} (w : Stage H) : List H := w.calls.map Call.handler

/-- Where control is when a handler loop is left: the loop ran to its end, the
function has returned from inside the loop, a panic is unwinding, or the
process is gone. -/
inductive Flow where
  | finished : Flow
  | returned : Flow
  | panicking (r : PanicValue) : Flow
  | exited : Flow
  deriving DecidableEq, Repr

/-- Function `anyTopicMatches`. -/
def anyTopicMatches (expected : List TopicExpr) (topic : String) : Bool :=
  match expected with
  | [] => false
  | t :: rest => if t.«matches» topic then true else anyTopicMatches rest topic

/-- Method `Pipeline.failFastLogger`: with fail-fast the logger's `Fatalw`
ends the process, otherwise the error is logged. The second component tells
whether the call returns to its caller. -/
def Pipeline.failFastLogger {H : Type} (p : Pipeline) (err : GoError) (w : Stage H) :
    Stage H × Bool :=
  if p.context.IsFailFastEnabled then
    ({ w with errors := w.errors ++ [err], exit := Exit.fatal }, false)
  else
    ({ w with errors := w.errors ++ [err] }, true)

/-- Method `Pipeline.checkRecover`, called by the deferred function with the
result of `recover()`: nothing on nil; otherwise an `error` is logged, and with
fail-fast the logger's `Fatal` ends the process. -/
def Pipeline.checkRecover {H : Type} (p : Pipeline) (r : Option PanicValue) (w : Stage H) : Stage H :=
  match r with
  | none => w
  | some v =>
    let w1 : Stage H :=
      match v with
      | PanicValue.error e => { w with errors := w.errors ++ [e] }
      | PanicValue.other _ => w
    if p.context.failFast then { w1 with exit := Exit.fatal }
    else { w1 with exit := Exit.recovered }

/-- Method `Pipeline.output`: sends the outbound data on the reply channel of
the session. The send itself cannot panic, so the deferred recovery of this
method has nothing to catch. -/
def Pipeline.output {H : Type} (_p : Pipeline) (w : Stage H) : Stage H :=
  let data := w.session.Outbound.Data
  let outputChan := w.session.outputChan ++ [data]
  { w with session := { w.session with outputChan := outputChan } }

/-- The handler loop of `handleInterceptor` over the sorted matches. -/
def Pipeline.interceptorLoop (p : Pipeline) :
    List Interceptor → Stage Interceptor → Stage Interceptor × Flow
  | [], w => (w, Flow.finished)
  | it :: rest, w =>
    let eff := it.Handle w.session p.context
    let w1 : Stage Interceptor :=
      { w with session := w.session.after eff, calls := w.calls ++ [{ handler := it, effect := eff }] }
    match eff.result with
    | Outcome.panic r => (w1, Flow.panicking r)
    | Outcome.ok => p.interceptorLoop rest w1
    | Outcome.err err =>
      if err = ErrInterceptorDropped then
        let s1 := { w1.session with outbound := w1.session.Outbound.AddDataField "error" (Value.str "InterceptorDropped") }
        let s2 := s1.AddAttribute "拦截过程用时" (s1.Since p.context.clock)
        (p.output { w1 with session := s2 }, Flow.returned)
      else
        match p.failFastLogger err w1 with
        | (w2, false) => (w2, Flow.exited)
        | (w2, true) => p.interceptorLoop rest w2

/-- Method `Pipeline.handleInterceptor`. `sortSort` is the library routine
`sort.Sort` applied to an `InterceptorSlice`. -/
def Pipeline.handleInterceptor (sortSort : InterceptorSlice → InterceptorSlice)
    (p : Pipeline) (session : EventSession) : Stage Interceptor :=
  let found : InterceptorSlice :=
    p.interceptors.filter (fun interceptor => anyTopicMatches interceptor.topicExprs session.Topic)
  let sorted := sortSort found
  match p.interceptorLoop sorted (Stage.start Interceptor session) with
  | (w, Flow.finished) =>
    let s1 := w.session.AddAttribute "拦截过程用时" (w.session.Since p.context.clock)
    p.checkRecover none { w with session := s1, endChan := w.endChan ++ [s1] }
  | (w, Flow.returned) => p.checkRecover none w
  | (w, Flow.panicking r) => p.checkRecover (some r) w
  | (w, Flow.exited) => w

/-- Method `Pipeline.deliverToOutput`. -/
def Pipeline.deliverToOutput (p : Pipeline) (uuid : String) (rawJSON : JSONPacket) :
    Option JSONPacket × Option GoError :=
  match lookupOutput p.uuidOutputs uuid with
  | some output =>
    match output.Encode rawJSON with
    | Except.error encErr => (none, errorsWithMessage (some encErr) ("设备Encode数据出错: " ++ uuid))
    | Except.ok inputFrame =>
      let encErr : Option GoError := none
      match output.Process inputFrame p.context with
      | Except.error err => (none, errorsWithMessage (some err) ("Output设备处理出错: " ++ uuid))
      | Except.ok retJSON =>
        match output.Decode retJSON with
        | Except.error _decErr => (none, errorsWithMessage encErr ("设备Decode数据出错: " ++ uuid))
        | Except.ok json => (some json, none)
  | none => (none, errorsNew ("指定地址的Output设备不存在:" ++ uuid))

/-- The handler loop of `handleDriver` over the registered drivers. -/
def Pipeline.driverLoop (p : Pipeline) : List Driver → Stage Driver → Stage Driver × Flow
  | [], w => (w, Flow.finished)
  | driver :: rest, w =>
    if anyTopicMatches driver.topicExprs w.session.Topic then
      let eff := driver.Handle w.session p.deliverToOutput p.context
      let w1 : Stage Driver :=
        { w with session := w.session.after eff, calls := w.calls ++ [{ handler := driver, effect := eff }] }
      match eff.result with
      | Outcome.panic r => (w1, Flow.panicking r)
      | Outcome.ok => p.driverLoop rest w1
      | Outcome.err err =>
        match p.failFastLogger err w1 with
        | (w2, false) => (w2, Flow.exited)
        | (w2, true) => p.driverLoop rest w2
    else p.driverLoop rest w

/-- Method `Pipeline.handleDriver`. -/
def Pipeline.handleDriver (p : Pipeline) (session : EventSession) : Stage Driver :=
  match p.driverLoop p.drivers (Stage.start Driver session) with
  | (w, Flow.finished) =>
    let s1 := w.session.AddAttribute "驱动过程用时" (w.session.Since p.context.clock)
    p.checkRecover none (p.output { w with session := s1 })
  | (w, Flow.returned) => p.checkRecover none w
  | (w, Flow.panicking r) => p.checkRecover (some r) w
  | (w, Flow.exited) => w

/-- What the dispatcher does with one session taken from `startChan`: the
start handler runs on it, and the end handler runs on the session the start
handler sent on `endChan`, if it sent one. -/
structure Served where
  interceptorStage : Stage Interceptor
  driverStage : Option (Stage Driver)

/-- `Dispatcher.Serve` followed for one session. -/
def Pipeline.serve (sortSort : InterceptorSlice → InterceptorSlice)
    (p : Pipeline) (session : EventSession) : Served :=
  let w := p.handleInterceptor sortSort session
  match w.endChan with
  | [] => { interceptorStage := w, driverStage := none }
  | s :: _ => { interceptorStage := w, driverStage := some (p.handleDriver s) }

/-- The reply channel of the session once the workers are done. -/
def Served.outputChan (r : Served) : List JSONPacket :=
  match r.driverStage with
  | none => r.interceptorStage.session.outputChan
  | some w => w.session.outputChan

/-! ## Post-conditions of the handler loops and of the workers -/

/-- A return value after which the interceptor loop goes on: nil, or an error
other than the sentinel. -/
def Outcome.passes : Outcome → Bool
  | Outcome.ok => true
  | Outcome.err e => decide (e ≠ ErrInterceptorDropped)
  | Outcome.panic _ => false

/-- A completion that is a return, not a panic. -/
def Outcome.returns : Outcome → Bool
  | Outcome.panic _ => false
  | _ => true

/-- What holds of the result of the interceptor loop over `l` entered in
state `w`: the calls it adds are calls of an initial segment of `l`, `endChan`
is untouched, and each way of leaving the loop fixes the last call and the
reply channel. -/
def InterceptorPost (p : Pipeline) (w : Stage Interceptor) (l : List Interceptor)
    (res : Stage Interceptor × Flow) : Prop :=
  ∃ new : List (Call Interceptor),
    res.1.calls = w.calls ++ new ∧
    res.1.endChan = w.endChan ∧
    new.map Call.handler <+: l ∧
    match res.2 with
    | Flow.finished =>
        new.map Call.handler = l ∧ (∀ c ∈ new, c.effect.result.passes = true) ∧
        res.1.session.outputChan = w.session.outputChan ∧ res.1.exit = w.exit
    | Flow.returned =>
        ∃ pre c, new = pre ++ [c] ∧ (∀ c' ∈ pre, c'.effect.result.passes = true) ∧
          c.effect.result = Outcome.err ErrInterceptorDropped ∧
          res.1.session.outbound =
            c.effect.outbound.AddDataField "error" (Value.str "InterceptorDropped") ∧
          res.1.session.outputChan = w.session.outputChan ++ [res.1.session.outbound.Data] ∧
          res.1.exit = w.exit
    | Flow.panicking r =>
        ∃ pre c, new = pre ++ [c] ∧ (∀ c' ∈ pre, c'.effect.result.passes = true) ∧
          c.effect.result = Outcome.panic r ∧
          res.1.session.outbound = c.effect.outbound ∧
          res.1.session.outputChan = w.session.outputChan ∧ res.1.exit = w.exit
    | Flow.exited =>
        p.context.failFast = true ∧
        ∃ pre c e, new = pre ++ [c] ∧ (∀ c' ∈ pre, c'.effect.result.passes = true) ∧
          c.effect.result = Outcome.err e ∧ e ≠ ErrInterceptorDropped ∧
          res.1.session.outputChan = w.session.outputChan ∧ res.1.exit = Exit.fatal

/-- The drivers of `l` whose patterns match the topic, in the order of `l`. -/
def matchingDrivers (l : List Driver) (topic : String) : List Driver :=
  l.filter (fun d => anyTopicMatches d.topicExprs topic)

/-- What holds of the result of the driver loop over `l` entered in state `w`:
the calls it adds are calls of an initial segment of the matching drivers, and
neither `endChan` nor the reply channel is touched. -/
def DriverPost (p : Pipeline) (w : Stage Driver) (l : List Driver)
    (res : Stage Driver × Flow) : Prop :=
  ∃ new : List (Call Driver),
    res.1.calls = w.calls ++ new ∧
    res.1.endChan = w.endChan ∧
    res.1.session.outputChan = w.session.outputChan ∧
    new.map Call.handler <+: matchingDrivers l w.session.Topic ∧
    match res.2 with
    | Flow.finished =>
        new.map Call.handler = matchingDrivers l w.session.Topic ∧
        (∀ c ∈ new, c.effect.result.returns = true) ∧ res.1.exit = w.exit
    | Flow.returned => False
    | Flow.panicking r =>
        ∃ pre c, new = pre ++ [c] ∧ (∀ c' ∈ pre, c'.effect.result.returns = true) ∧
          c.effect.result = Outcome.panic r ∧
          res.1.session.outbound = c.effect.outbound ∧ res.1.exit = w.exit
    | Flow.exited =>
        p.context.failFast = true ∧
        ∃ pre c e, new = pre ++ [c] ∧ (∀ c' ∈ pre, c'.effect.result.returns = true) ∧
          c.effect.result = Outcome.err e ∧ res.1.exit = Exit.fatal

/-- The interceptors whose patterns match the topic of the session, in
registration order, as `handleInterceptor` collects them before sorting. -/
def matchingInterceptors (p : Pipeline) (session : EventSession) : InterceptorSlice :=
  p.interceptors.filter (fun interceptor => anyTopicMatches interceptor.topicExprs session.Topic)

/-- The interceptor worker left through the end of its loop: every sorted match
was called and passed, and the session went to `endChan` with no reply sent. -/
def InterceptorForwarded (l : List Interceptor) (s : EventSession) (r : Stage Interceptor) : Prop :=
  r.invoked = l ∧ (∀ c ∈ r.calls, c.effect.result.passes = true) ∧
  r.endChan = [r.session] ∧ r.session.outputChan = s.outputChan ∧ r.exit = Exit.returned

/-- The interceptor worker left on a drop: the last call returned the sentinel,
the calls before it passed, the reply was sent and nothing went to `endChan`. -/
def InterceptorDroppedAt (s : EventSession) (r : Stage Interceptor) : Prop :=
  ∃ pre c, r.calls = pre ++ [c] ∧ (∀ c' ∈ pre, c'.effect.result.passes = true) ∧
    c.effect.result = Outcome.err ErrInterceptorDropped ∧
    r.session.outbound = c.effect.outbound.AddDataField "error" (Value.str "InterceptorDropped") ∧
    r.session.outputChan = s.outputChan ++ [r.session.outbound.Data] ∧
    r.endChan = [] ∧ r.exit = Exit.returned

/-- The interceptor worker left on a panic of its last call: nothing was sent,
on the reply channel or on `endChan`, and the outbound message is as the
panicking handler left it. -/
def InterceptorPanickedAt (p : Pipeline) (s : EventSession) (r : Stage Interceptor) : Prop :=
  ∃ pre c v, r.calls = pre ++ [c] ∧ (∀ c' ∈ pre, c'.effect.result.passes = true) ∧
    c.effect.result = Outcome.panic v ∧
    r.session.outbound = c.effect.outbound ∧
    r.session.outputChan = s.outputChan ∧ r.endChan = [] ∧
    r.exit = (if p.context.failFast then Exit.fatal else Exit.recovered)

/-- The interceptor worker ended the process: fail-fast is set and the last call
returned an error other than the sentinel. -/
def InterceptorFatalAt (p : Pipeline) (s : EventSession) (r : Stage Interceptor) : Prop :=
  p.context.failFast = true ∧
  ∃ pre c e, r.calls = pre ++ [c] ∧ (∀ c' ∈ pre, c'.effect.result.passes = true) ∧
    c.effect.result = Outcome.err e ∧ e ≠ ErrInterceptorDropped ∧
    r.session.outputChan = s.outputChan ∧ r.endChan = [] ∧ r.exit = Exit.fatal

/-- The driver worker left through the end of its loop: every matching driver
was called and returned, and the outbound data was sent as the reply. -/
def DriverReplied (p : Pipeline) (s : EventSession) (r : Stage Driver) : Prop :=
  r.invoked = matchingDrivers p.drivers s.Topic ∧
  (∀ c ∈ r.calls, c.effect.result.returns = true) ∧
  r.session.outputChan = s.outputChan ++ [r.session.outbound.Data] ∧
  r.exit = Exit.returned

/-- The driver worker left on a panic of its last call: no reply was sent and
the outbound message is as the panicking handler left it. -/
def DriverPanickedAt (p : Pipeline) (s : EventSession) (r : Stage Driver) : Prop :=
  ∃ pre c v, r.calls = pre ++ [c] ∧ (∀ c' ∈ pre, c'.effect.result.returns = true) ∧
    c.effect.result = Outcome.panic v ∧
    r.session.outbound = c.effect.outbound ∧
    r.session.outputChan = s.outputChan ∧
    r.exit = (if p.context.failFast then Exit.fatal else Exit.recovered)

/-- The driver worker ended the process: fail-fast is set and the last call
returned an error. -/
def DriverFatalAt (p : Pipeline) (s : EventSession) (r : Stage Driver) : Prop :=
  p.context.failFast = true ∧
  ∃ pre c e, r.calls = pre ++ [c] ∧ (∀ c' ∈ pre, c'.effect.result.returns = true) ∧
    c.effect.result = Outcome.err e ∧
    r.session.outputChan = s.outputChan ∧ r.exit = Exit.fatal

/-! ## The input deliverer -/

/-- Type `LogicDevice`: `GetUuid`, `GetTopic`, `GetName`, `CheckIfMatch` and
`Transform`; `className` is what `utils.GetClassName` gives for it. -/
structure LogicDevice where
  className : String
  name : String
  uuid : String
  topic : String
  CheckIfMatch : JSONPacket → Bool
  Transform : JSONPacket → JSONPacket

/-- Type `InputDevice`: `GetUuid`, `GetName`, `GetDecoder`, `GetEncoder` and
`GetLogicDevices`; `className` is what `utils.GetClassName` gives for it. A
result `(value, error)` with a non-nil error is `Except.error`. -/
structure InputDevice where
  className : String
  name : String
  uuid : String
  Decode : Bytes → Except GoError JSONPacket
  Encode : JSONPacket → Except GoError Bytes
  logicDevices : List LogicDevice

/-- The loop of `newInputDeliverer` over the logic devices of the input: the
device it stops at, the attributes, and the devices whose `CheckIfMatch` it
called, in order. -/
def findLogic (inputJSON : JSONPacket) :
    List LogicDevice → JSONPacket → List LogicDevice →
      Option LogicDevice × JSONPacket × List LogicDevice
  | [], attributes, consulted => (none, attributes, consulted)
  | item :: rest, attributes, consulted =>
    if item.CheckIfMatch inputJSON then
      (some item,
       (attributes.put "@InputDevice.Logic.Type" (Value.str item.className)).put
         "@InputDevice.Logic.Name" (Value.str item.name),
       consulted ++ [item])
    else findLogic inputJSON rest attributes (consulted ++ [item])

/-- What a call of the deliverer of an input did: whether it returned (it has
not when it still waits on the reply channel), the frame and error it returned,
the sessions it sent on the start channel of the dispatcher, and the logic
devices it consulted. -/
structure Delivery where
  returned : Bool
  frame : Option FramePacket
  err : Option GoError
  startC : List EventSession
  consulted : List LogicDevice

/-- The part of the deliverer between the decoding and the send on the start
channel: the attributes, the search for a logic device, the rerouting, and the
session literal. It gives the session to send and the logic devices consulted.
`now` is the reading of `time.Now()`. -/
def newEventSession (now : Nat) (masterInput : InputDevice) (topic : String)
    (inputJSON : JSONPacket) : EventSession × List LogicDevice :=
  let masterUuid := masterInput.uuid
  let attributes : JSONPacket :=
    (JSONPacket.put [] "@InputDevice.Type" (Value.str masterInput.className)).put
      "@InputDevice.Name" (Value.str masterInput.name)
  match findLogic inputJSON masterInput.logicDevices attributes [] with
  | (logic, attributes, consulted) =>
    let toSendUuid := match logic with
      | some l => l.uuid
      | none => masterUuid
    let toSendTopic := match logic with
      | some l => l.topic
      | none => topic
    let toSendData := match logic with
      | some l => l.Transform inputJSON
      | none => inputJSON
    ({ timestamp := now,
       attributes := attributes,
       topic := toSendTopic,
       uuid := toSendUuid,
       inbound := { Topic := toSendTopic, Data := toSendData },
       outbound := { Topic := toSendTopic, Data := [] },
       outputChan := [] },
     consulted)

/-- The function `Pipeline.newInputDeliverer` returns, for the input device
`masterInput`. Between the send on the start channel and the receive on the
reply channel the dispatcher serves the session; a map is never nil here, so
the test of a nil reply has no branch. -/
def Pipeline.newInputDeliverer (sortSort : InterceptorSlice → InterceptorSlice)
    (p : Pipeline) (now : Nat) (masterInput : InputDevice)
    (topic : String) (rawFrame : FramePacket) : Delivery :=
  let masterUuid := masterInput.uuid
  match rawFrame.Data with
  | none =>
    { returned := true, frame := none,
      err := errorsNew "Input设备发起Deliver请求必须携带参数数据",
      startC := [], consulted := [] }
  | some inputFrame =>
    match masterInput.Decode inputFrame with
    | Except.error err =>
      { returned := true, frame := none,
        err := errorsWithMessage (some err) ("Input设备Decode数据出错：" ++ masterUuid),
        startC := [], consulted := [] }
    | Except.ok inputJSON =>
      match newEventSession now masterInput topic inputJSON with
      | (session, consulted) =>
        match (p.serve sortSort session).outputChan with
        | [] =>
          { returned := false, frame := none, err := none,
            startC := [session], consulted := consulted }
        | outputJSON :: _ =>
          match masterInput.Encode outputJSON with
          | Except.error err =>
            { returned := true, frame := none,
              err := errorsWithMessage (some err) ("Input设备Encode数据出错：" ++ masterUuid),
              startC := [session], consulted := consulted }
          | Except.ok outputFrame =>
            { returned := true, frame := some (NewFramePacket outputFrame), err := none,
              startC := [session], consulted := consulted }

/-! ## The library routine sort.Sort -/

/-- Method `Swap` of a slice: the elements at `i` and `j` change places. -/
def sliceSwap {α : Type} (data : List α) (i j : Nat) : List α :=
  match data[i]?, data[j]? with
  | some x, some y => (data.set i y).set j x
  | _, _ => data

/-- One step of the shell pass of `quickSort` in the library package `sort`:
`if data.Less(i, i-6) { data.Swap(i, i-6) }`. -/
def shellStep {α : Type} (less : α → α → Bool) (data : List α) (i : Nat) : List α :=
  match data[i]?, data[i - 6]? with
  | some x, some y => if less x y then sliceSwap data i (i - 6) else data
  | _, _ => data

/-- The shell pass with gap 6 of `quickSort`: `for i := a + 6; i < b; i++`,
over the whole slice. -/
def shellPass {α : Type} (less : α → α → Bool) (data : List α) : List α :=
  (List.range' 6 (data.length - 6)).foldl (shellStep less) data

/-- The inner loop of the library's `insertionSort`,
`for j := i; j > a && data.Less(j, j-1); j-- { data.Swap(j, j-1) }`, for the
element `x` at `i`; the part of the slice before `i` is held nearest first. -/
def sinkLeft {α : Type} (less : α → α → Bool) (x : α) : List α → List α
  | [] => [x]
  | y :: before => if less x y then y :: sinkLeft less x before else x :: y :: before

/-- The outer loop of the library's `insertionSort`: `done` is the part already
handled, nearest first, and `rest` what is still to insert. -/
def insertionLoop {α : Type} (less : α → α → Bool) : List α → List α → List α
  | done, [] => done.reverse
  | done, x :: rest => insertionLoop less (sinkLeft less x done) rest

/-- The library's `insertionSort(data, 0, n)`. -/
def insertionSort {α : Type} (less : α → α → Bool) (data : List α) : List α :=
  insertionLoop less [] data

/-- What `sort.Sort` of Go 1.6 to 1.18, the releases of the repository's time,
does to a slice of at most 12 elements: the last branch of `quickSort`, one
shell pass with gap 6 and then `insertionSort`. On a longer slice the library
partitions first; this routine still sorts it, by insertion. -/
def sortSmall (data : InterceptorSlice) : InterceptorSlice :=
  insertionSort InterceptorSlice.Less (shellPass InterceptorSlice.Less data)

/-- The contract of `sort.Sort` on an `InterceptorSlice`: the result holds the
same elements and is ascending for `Less`, no element being `Less` than one
before it. The library does not promise stability. -/
def SortContract (sortSort : InterceptorSlice → InterceptorSlice) : Prop :=
  ∀ data : InterceptorSlice,
    (sortSort data).Perm data ∧
    (sortSort data).Pairwise (fun a b => InterceptorSlice.Less b a = false)

/-- Placing `x` in an ascending list behind every element of its priority or a
lower one. -/
def insertStable (x : Interceptor) : List Interceptor → List Interceptor
  | [] => [x]
  | y :: rest => if x.priority < y.priority then x :: y :: rest else y :: insertStable x rest

/-- The stable sort by ascending priority the specification speaks of: lower
priority first, equal priorities in the order of the input. -/
def stableSortByPriority (data : List Interceptor) : List Interceptor :=
  data.foldl (fun sorted x => insertStable x sorted) []

/-! ## Example components -/

/-- A pattern that matches one topic. -/
def exactTopic (topic : String) : TopicExpr := { «matches» := fun t => t == topic }

/-- A handler effect that leaves the session as it is. -/
def keep (s : EventSession) (result : Outcome) : Effect :=
  { attributes := s.attributes, outbound := s.outbound, result := result }

/-- An interceptor on topic `/x` that completes the same way on every call. -/
def interceptorX (name : String) (priority : Int) (result : Outcome) : Interceptor :=
  { name := name, topicExprs := [exactTopic "/x"], priority := priority,
    Handle := fun s _ => keep s result }

/-- A driver on the given topic that completes the same way on every call. -/
def driverOn (name topic : String) (result : Outcome) : Driver :=
  { name := name, topicExprs := [exactTopic topic], Handle := fun s _ _ => keep s result }

/-- A session on topic `/x` as the input deliverer builds it. -/
def sessionX : EventSession :=
  { timestamp := 0, attributes := [], topic := "/x", uuid := "in1",
    inbound := { Topic := "/x", Data := [("v", Value.int 1)] },
    outbound := { Topic := "/x", Data := [] }, outputChan := [] }

/-- A context with fail-fast off. -/
def lenient : Context := { failFast := false, logVerbose := false, clock := 5 }

/-- A pipeline whose interceptor returns a plain error and whose driver
returns nil. -/
def pipelineErr : Pipeline :=
  { context := lenient,
    interceptors := [interceptorX "A" 10 (Outcome.err (GoError.new "boom"))],
    drivers := [driverOn "drv" "/x" Outcome.ok],
    uuidOutputs := [] }

/-- A pipeline of two interceptors on `/x`, registered as `B` (priority 20) then
`A` (priority 10, returns the drop sentinel), and one driver on `/x`. -/
def pipelineDrop : Pipeline :=
  { context := lenient,
    interceptors := [interceptorX "B" 20 Outcome.ok,
                     interceptorX "A" 10 (Outcome.err ErrInterceptorDropped)],
    drivers := [driverOn "drv" "/x" Outcome.ok],
    uuidOutputs := [] }

/-- A pipeline whose only interceptor panics, with one driver behind it. -/
def pipelinePanic : Pipeline :=
  { context := lenient,
    interceptors := [interceptorX "P" 10 (Outcome.panic (PanicValue.other "nil map"))],
    drivers := [driverOn "drv" "/x" Outcome.ok],
    uuidOutputs := [] }

/-- A pipeline with no interceptor and two drivers on `/x`: the first panics,
the second returns nil. -/
def pipelineDriverPanic : Pipeline :=
  { context := lenient,
    interceptors := [],
    drivers := [driverOn "D1" "/x" (Outcome.panic (PanicValue.other "nil map")),
                driverOn "D2" "/x" Outcome.ok],
    uuidOutputs := [] }

/-- Seven interceptors on `/x` in registration order: `i1` of priority 1, then
`i2` to `i7` of priority 0. -/
def sevenInterceptors : List Interceptor :=
  [interceptorX "i1" 1 Outcome.ok, interceptorX "i2" 0 Outcome.ok,
   interceptorX "i3" 0 Outcome.ok, interceptorX "i4" 0 Outcome.ok,
   interceptorX "i5" 0 Outcome.ok, interceptorX "i6" 0 Outcome.ok,
   interceptorX "i7" 0 Outcome.ok]

/-- A pipeline with the seven interceptors registered. -/
def pipelineSeven : Pipeline :=
  { context := lenient, interceptors := sevenInterceptors, drivers := [], uuidOutputs := [] }

/-- A pipeline of interceptors `A` and `B` and of drivers `D1`, `D0` and `D2`,
all returning errors; `D0` is on another topic. -/
def pipelineErrors : Pipeline :=
  { context := lenient,
    interceptors := [interceptorX "A" 10 (Outcome.err (GoError.new "boom")),
                     interceptorX "B" 20 (Outcome.err (GoError.new "late"))],
    drivers := [driverOn "D1" "/x" (Outcome.err (GoError.new "bang")),
                driverOn "D0" "/y" (Outcome.err (GoError.new "none")),
                driverOn "D2" "/x" (Outcome.err (GoError.new "last"))],
    uuidOutputs := [] }

/-- An interceptor on `/x` that writes the field `reason` to the outbound data
and returns the drop sentinel. -/
def interceptorReason : Interceptor :=
  { name := "R", topicExprs := [exactTopic "/x"], priority := 10,
    Handle := fun s _ =>
      { attributes := s.attributes,
        outbound := s.outbound.AddDataField "reason" (Value.str "quota"),
        result := Outcome.err ErrInterceptorDropped } }

/-- A pipeline whose only interceptor is the one that gives a reason. -/
def pipelineReason : Pipeline :=
  { context := lenient, interceptors := [interceptorReason],
    drivers := [driverOn "drv" "/x" Outcome.ok], uuidOutputs := [] }


/-- An output device whose encoder and `Process` succeed and whose decoder
fails on every frame. -/
def outputBadDecode : OutputDevice :=
  { Encode := fun _ => Except.ok [1],
    Process := fun frame _ => Except.ok frame,
    Decode := fun _ => Except.error (GoError.new "unexpected end of JSON input") }

/-- A pipeline with that output device registered under the uuid `out1`. -/
def pipelineBadDecode : Pipeline :=
  { context := lenient, interceptors := [], drivers := [],
    uuidOutputs := [("out1", outputBadDecode)] }

/-- A logic device for payloads with the given value of `kind`. -/
def logicFor (name kind topic : String) : LogicDevice :=
  { className := "Logic", name := name, uuid := "uuid-" ++ name, topic := topic,
    CheckIfMatch := fun json => decide (JSONPacket.get json "kind" = some (Value.str kind)),
    Transform := fun json => JSONPacket.put json "via" (Value.str name) }

/-- An input device whose decoder rejects the empty frame, and reads any
other frame as a payload of kind `temp`; two logic devices are attached. -/
def inputOne : InputDevice :=
  { className := "Input", name := "in1", uuid := "uuid-in1",
    Decode := fun frame =>
      match frame with
      | [] => Except.error (GoError.new "empty frame")
      | _ => Except.ok [("kind", Value.str "temp")],
    Encode := fun _ => Except.ok [7],
    logicDevices := [logicFor "H" "humidity" "/sensor/hum", logicFor "L" "temp" "/sensor/temp"] }

/-- An input device with no logic device, whose decoder reads every frame as
the payload with `v` bound to 1. -/
def inputPlain : InputDevice :=
  { className := "Input", name := "in0", uuid := "uuid-in0",
    Decode := fun _ => Except.ok [("v", Value.int 1)],
    Encode := fun _ => Except.ok [7],
    logicDevices := [] }

/-- A pipeline on `/x` whose interceptors are `A` (returns a plain error), `B`
(panics) and `C`, in priority order, and whose drivers are `D1` (returns an
error), `D2` (panics) and `D3`. -/
def pipelineErrorThenPanic : Pipeline :=
  { context := lenient,
    interceptors := [interceptorX "A" 10 (Outcome.err (GoError.new "boom")),
                     interceptorX "B" 20 (Outcome.panic (PanicValue.other "nil map")),
                     interceptorX "C" 30 Outcome.ok],
    drivers := [driverOn "D1" "/x" (Outcome.err (GoError.new "bang")),
                driverOn "D2" "/x" (Outcome.panic (PanicValue.other "nil map")),
                driverOn "D3" "/x" Outcome.ok],
    uuidOutputs := [] }

/-! ## Lifecycle: the start of the pipeline -/

/-- The five groups of components the specification names for the start
order. -/
inductive Group where
  | plugins : Group
  | outputs : Group
  | drivers : Group
  | inputs : Group
  | logics : Group
  deriving DecidableEq, Repr

/-- A registered component as `Start` sees it: the name `utils.GetClassName`
gives it, and whether it implements the interface `LifeCycle`. -/
structure Component where
  className : String
  LifeCycle : Bool
  deriving DecidableEq, Repr

/-- An input device as `Start` sees it: the component, its uuid, and the logic
devices attached to it (`GetLogicDevices`). -/
structure InputComponent where
  component : Component
  uuid : String
  logicDevices : List Component
  deriving DecidableEq, Repr

/-- The part of type `Register`, embedded in `Pipeline`, that `Start` reads:
the two lists of start hooks, each hook known by a name, and the collections of
plugins, outputs, drivers and inputs, in registration order. -/
structure Register where
  startBeforeHooks : List String
  startAfterHooks : List String
  plugins : List Component
  outputs : List Component
  drivers : List Component
  inputs : List InputComponent
  deriving DecidableEq, Repr

/-- What `Start` does that components and hooks can observe, in the order it
does it: a hook of either list is called, `OnStart` of a component is called
under the timeout guard, the goroutine that runs `Serve` of an input is
launched. The group of an `OnStart` is the collection `Start` was walking. -/
inductive StartEvent where
  | startBeforeHook (hook : String) : StartEvent
  | OnStart (group : Group) (className : String) : StartEvent
  | Serve (uuid : String) : StartEvent
  | startAfterHook (hook : String) : StartEvent
  deriving DecidableEq, Repr

/-- Modelled from the spec: `utils.ForEach` is not in the sources; it calls the
function on every element of the collection, in the order of the collection. -/
def ForEach {α : Type} (items : List α) (f : α → List StartEvent) : List StartEvent :=
  match items with
  | [] => []
  | it :: rest => f it ++ ForEach rest f

/-- Modelled from the spec: `Context.CheckTimeout` is not in the sources; it
invokes the work, waits for its completion or for the timeout, and proceeds
either way. What is kept of it is that the work is invoked. -/
def CheckTimeout (_tag : String) (work : List StartEvent) : List StartEvent := work

/-- The function `startFn` of `Start`, called while walking the collection
`group`: `OnStart` is called on a component that implements `LifeCycle`. -/
def startFn (group : Group) (component : Component) : List StartEvent :=
  if component.LifeCycle then
    CheckTimeout (component.className ++ ".Start") [StartEvent.OnStart group component.className]
  else []

/-- Method `Pipeline.Start`, on the register embedded in the pipeline: the
hooks to run first, the four walks with `startFn`, the launch of one `Serve`
goroutine per input, and last the deferred function with the hooks to run
after. Hooks and `OnStart` are taken as calls that return. -/
def Pipeline.Start (p : Register) : List StartEvent :=
  let hooksFirst := ForEach p.startBeforeHooks (fun it => [StartEvent.startBeforeHook it])
  let deferred := ForEach p.startAfterHooks (fun it => [StartEvent.startAfterHook it])
  hooksFirst
    ++ ForEach p.plugins (startFn Group.plugins)
    ++ ForEach p.outputs (startFn Group.outputs)
    ++ ForEach p.drivers (startFn Group.drivers)
    ++ ForEach p.inputs (fun it => startFn Group.inputs it.component)
    ++ ForEach p.inputs (fun it => [StartEvent.Serve it.uuid])
    ++ deferred

/-- The calls of `OnStart` in a run of `Start`, in call order. -/
def startCalls (trace : List StartEvent) : List (Group × String) :=
  trace.filterMap (fun e =>
    match e with
    | StartEvent.OnStart group className => some (group, className)
    | _ => none)

/-- The components of a collection that implement `LifeCycle`, in registered
order, each with the group it belongs to. -/
def capable (group : Group) (items : List Component) : List (Group × String) :=
  (items.filter (fun c => c.LifeCycle)).map (fun c => (group, c.className))

/-- The logic devices attached to the inputs, input by input. -/
def logicsOf (inputs : List InputComponent) : List Component :=
  match inputs with
  | [] => []
  | input :: rest => input.logicDevices ++ logicsOf rest

/-- The calls of `OnStart` the specification states for `Start`: the
lifecycle-capable plugins, outputs, drivers, inputs and logic devices, group
by group, each group in its registered order. -/
def claimedStartCalls (p : Register) : List (Group × String) :=
  capable Group.plugins p.plugins ++ capable Group.outputs p.outputs
    ++ capable Group.drivers p.drivers
    ++ capable Group.inputs (p.inputs.map InputComponent.component)
    ++ capable Group.logics (logicsOf p.inputs)

/-- The place of an event in the start sequence: the hooks to run first, the
`OnStart` calls by group, the launches of `Serve`, the hooks to run after. -/
def StartEvent.phase : StartEvent → Nat
  | StartEvent.startBeforeHook _ => 0
  | StartEvent.OnStart Group.plugins _ => 1
  | StartEvent.OnStart Group.outputs _ => 2
  | StartEvent.OnStart Group.drivers _ => 3
  | StartEvent.OnStart Group.inputs _ => 4
  | StartEvent.OnStart Group.logics _ => 5
  | StartEvent.Serve _ => 6
  | StartEvent.startAfterHook _ => 7

/-- A register with one lifecycle-capable component in each collection, a
driver that does not implement `LifeCycle`, and a lifecycle-capable logic
device `L` attached to the input. -/
def registerDemo : Register :=
  { startBeforeHooks := ["hb1", "hb2"],
    startAfterHooks := ["ha1"],
    plugins := [{ className := "P", LifeCycle := true }],
    outputs := [{ className := "O", LifeCycle := true }],
    drivers := [{ className := "D0", LifeCycle := false }, { className := "D", LifeCycle := true }],
    inputs := [{ component := { className := "I", LifeCycle := true }, uuid := "in1",
                 logicDevices := [{ className := "L", LifeCycle := true }] }] }

/-- The hooks of the first list called in a run of `Start`, in call order. -/
def hooksCalledFirst (trace : List StartEvent) : List String :=
  trace.filterMap (fun e =>
    match e with
    | StartEvent.startBeforeHook hook => some hook
    | _ => none)

/-- The hooks of the second list called in a run of `Start`, in call order. -/
def hooksCalledAfter (trace : List StartEvent) : List String :=
  trace.filterMap (fun e =>
    match e with
    | StartEvent.startAfterHook hook => some hook
    | _ => none)

/-- The inputs whose `Serve` goroutine a run of `Start` launched, by uuid, in
launch order. -/
def servesLaunched (trace : List StartEvent) : List String :=
  trace.filterMap (fun e =>
    match e with
    | StartEvent.Serve uuid => some uuid
    | _ => none)

/-! ## What the handler loops and the stage workers do -/

/-- A passing call in front: the post-condition of the rest of the loop, entered
after the call, is the post-condition of the whole loop. -/
theorem interceptorPost_step {p : Pipeline} {w w1 : Stage Interceptor} {it : Interceptor}
    {rest : List Interceptor} {res : Stage Interceptor × Flow} (c0 : Call Interceptor)
    (hc : w1.calls = w.calls ++ [c0]) (hh : c0.handler = it)
    (hp : c0.effect.result.passes = true) (he : w1.endChan = w.endChan)
    (ho : w1.session.outputChan = w.session.outputChan) (hx : w1.exit = w.exit)
    (h : InterceptorPost p w1 rest res) : InterceptorPost p w (it :: rest) res := by
  obtain ⟨new, h1, h2, h3, h4⟩ := h
  refine ⟨c0 :: new, by simp [h1, hc], by simp [h2, he], ?_, ?_⟩
  · simpa [hh] using h3
  · have hall : ∀ pre : List (Call Interceptor), (∀ c' ∈ pre, c'.effect.result.passes = true) →
        ∀ c' ∈ c0 :: pre, c'.effect.result.passes = true := by
      intro pre hpre c' hc'
      rcases List.mem_cons.mp hc' with rfl | hm
      · exact hp
      · exact hpre c' hm
    rcases res with ⟨w', f⟩
    cases f with
    | finished =>
      obtain ⟨a, b, c, d⟩ := h4
      exact ⟨by simp [hh, a], hall new b, by simpa [ho] using c, by simpa [hx] using d⟩
    | returned =>
      obtain ⟨pre, c, a, b, c1, d, e, f⟩ := h4
      exact ⟨c0 :: pre, c, by simp [a], hall pre b, c1, d, by simpa [ho] using e,
        by simpa [hx] using f⟩
    | panicking r =>
      obtain ⟨pre, c, a, b, c1, d, e, f⟩ := h4
      exact ⟨c0 :: pre, c, by simp [a], hall pre b, c1, d, by simpa [ho] using e,
        by simpa [hx] using f⟩
    | exited =>
      obtain ⟨hf, pre, c, e, a, b, c1, d, e1, f⟩ := h4
      exact ⟨hf, c0 :: pre, c, e, by simp [a], hall pre b, c1, d, by simpa [ho] using e1, f⟩

/-- The interceptor loop meets its post-condition from every state. -/
theorem interceptorLoop_post (p : Pipeline) (l : List Interceptor) :
    ∀ w : Stage Interceptor, InterceptorPost p w l (p.interceptorLoop l w) := by
  induction l with
  | nil =>
    intro w
    exact ⟨[], by simp [Pipeline.interceptorLoop]⟩
  | cons it rest ih =>
    intro w
    rw [Pipeline.interceptorLoop]
    cases hres : (it.Handle w.session p.context).result with
    | panic r =>
      dsimp only
      refine ⟨[⟨it, it.Handle w.session p.context⟩], rfl, rfl, by simp, ?_⟩
      exact ⟨[], _, rfl, by simp, hres, rfl, rfl, rfl⟩
    | ok =>
      dsimp only
      refine interceptorPost_step ⟨it, it.Handle w.session p.context⟩ ?_ rfl ?_ ?_ ?_ ?_ (ih _)
      · rfl
      · simp [hres, Outcome.passes]
      · rfl
      · rfl
      · rfl
    | err e =>
      dsimp only
      by_cases hd : e = ErrInterceptorDropped
      · simp only [hd, if_true]
        refine ⟨[⟨it, it.Handle w.session p.context⟩], rfl, rfl, by simp, ?_⟩
        exact ⟨[], _, rfl, by simp, by rw [hres, hd], rfl, rfl, rfl⟩
      · simp only [hd, if_false]
        cases hff : p.context.failFast with
        | true =>
          simp only [Pipeline.failFastLogger, Context.IsFailFastEnabled, hff, if_true]
          refine ⟨[⟨it, it.Handle w.session p.context⟩], rfl, rfl, by simp, ?_⟩
          exact ⟨hff, [], _, e, rfl, by simp, hres, hd, rfl, rfl⟩
        | false =>
          simp only [Pipeline.failFastLogger, Context.IsFailFastEnabled, hff]
          refine interceptorPost_step ⟨it, it.Handle w.session p.context⟩ ?_ rfl ?_ ?_ ?_ ?_ (ih _)
          · rfl
          · simp [hres, Outcome.passes, hd]
          · rfl
          · rfl
          · rfl

/-- A returning call of a matching driver in front: the post-condition of the
rest of the loop is the post-condition of the whole loop. -/
theorem driverPost_step {p : Pipeline} {w w1 : Stage Driver} {d : Driver}
    {rest : List Driver} {res : Stage Driver × Flow} (c0 : Call Driver)
    (hm : anyTopicMatches d.topicExprs w.session.Topic = true)
    (hc : w1.calls = w.calls ++ [c0]) (hh : c0.handler = d)
    (hp : c0.effect.result.returns = true) (he : w1.endChan = w.endChan)
    (ho : w1.session.outputChan = w.session.outputChan)
    (ht : w1.session.Topic = w.session.Topic) (hx : w1.exit = w.exit)
    (h : DriverPost p w1 rest res) : DriverPost p w (d :: rest) res := by
  obtain ⟨new, h1, h2, h3, h4, h5⟩ := h
  have hf : matchingDrivers (d :: rest) w.session.Topic
      = d :: matchingDrivers rest w.session.Topic := by
    simp [matchingDrivers, hm]
  rw [ht] at h4 h5
  refine ⟨c0 :: new, by simp [h1, hc], by simp [h2, he], by simp [h3, ho], ?_, ?_⟩
  · rw [hf]
    simpa [hh] using h4
  · have hall : ∀ pre : List (Call Driver), (∀ c' ∈ pre, c'.effect.result.returns = true) →
        ∀ c' ∈ c0 :: pre, c'.effect.result.returns = true := by
      intro pre hpre c' hc'
      rcases List.mem_cons.mp hc' with rfl | hm'
      · exact hp
      · exact hpre c' hm'
    rcases res with ⟨w', f⟩
    cases f with
    | finished =>
      obtain ⟨a, b, c⟩ := h5
      exact ⟨by rw [hf]; simp [hh, a], hall new b, by simpa [hx] using c⟩
    | returned => exact h5
    | panicking r =>
      obtain ⟨pre, c, a, b, c1, d1, f⟩ := h5
      exact ⟨c0 :: pre, c, by simp [a], hall pre b, c1, d1, by simpa [hx] using f⟩
    | exited =>
      obtain ⟨hff, pre, c, e, a, b, c1, f⟩ := h5
      exact ⟨hff, c0 :: pre, c, e, by simp [a], hall pre b, c1, f⟩

/-- The driver loop meets its post-condition from every state. -/
theorem driverLoop_post (p : Pipeline) (l : List Driver) :
    ∀ w : Stage Driver, DriverPost p w l (p.driverLoop l w) := by
  induction l with
  | nil =>
    intro w
    exact ⟨[], by simp [Pipeline.driverLoop, matchingDrivers]⟩
  | cons d rest ih =>
    intro w
    rw [Pipeline.driverLoop]
    cases hm : anyTopicMatches d.topicExprs w.session.Topic with
    | false =>
      simp only [Bool.false_eq_true, if_false]
      obtain ⟨new, h1, h2, h3, h4, h5⟩ := ih w
      have hf : matchingDrivers (d :: rest) w.session.Topic
          = matchingDrivers rest w.session.Topic := by
        simp [matchingDrivers, hm]
      exact ⟨new, h1, h2, h3, by rw [hf]; exact h4, by rw [hf]; exact h5⟩
    | true =>
      simp only [if_true]
      cases hres : (d.Handle w.session p.deliverToOutput p.context).result with
      | panic r =>
        dsimp only
        have hf : matchingDrivers (d :: rest) w.session.Topic
            = d :: matchingDrivers rest w.session.Topic := by
          simp [matchingDrivers, hm]
        refine ⟨[⟨d, d.Handle w.session p.deliverToOutput p.context⟩], rfl, rfl, rfl, ?_, ?_⟩
        · rw [hf]; simp
        · exact ⟨[], _, rfl, by simp, hres, rfl, rfl⟩
      | ok =>
        dsimp only
        refine driverPost_step ⟨d, d.Handle w.session p.deliverToOutput p.context⟩ hm
          ?_ rfl ?_ ?_ ?_ ?_ ?_ (ih _)
        · rfl
        · simp [hres, Outcome.returns]
        · rfl
        · rfl
        · rfl
        · rfl
      | err e =>
        dsimp only
        cases hff : p.context.failFast with
        | true =>
          simp only [Pipeline.failFastLogger, Context.IsFailFastEnabled, hff, if_true]
          have hf : matchingDrivers (d :: rest) w.session.Topic
              = d :: matchingDrivers rest w.session.Topic := by
            simp [matchingDrivers, hm]
          refine ⟨[⟨d, d.Handle w.session p.deliverToOutput p.context⟩], rfl, rfl, rfl, ?_, ?_⟩
          · rw [hf]; simp
          · exact ⟨hff, [], _, e, rfl, by simp, hres, rfl⟩
        | false =>
          simp only [Pipeline.failFastLogger, Context.IsFailFastEnabled, hff]
          refine driverPost_step ⟨d, d.Handle w.session p.deliverToOutput p.context⟩ hm
            ?_ rfl ?_ ?_ ?_ ?_ ?_ (ih _)
          · rfl
          · simp [hres, Outcome.returns]
          · rfl
          · rfl
          · rfl
          · rfl

/-- The deferred recovery leaves the session, the calls and `endChan` alone, and
ends the worker as recovered, or the process when fail-fast is set. -/
theorem checkRecover_some {H : Type} (p : Pipeline) (v : PanicValue) (w : Stage H) :
    (p.checkRecover (some v) w).session = w.session ∧
    (p.checkRecover (some v) w).calls = w.calls ∧
    (p.checkRecover (some v) w).endChan = w.endChan ∧
    (p.checkRecover (some v) w).exit =
      (if p.context.failFast then Exit.fatal else Exit.recovered) := by
  cases v <;> cases hff : p.context.failFast <;> simp [Pipeline.checkRecover, hff]

/-- The four ways `handleInterceptor` ends, and in each of them the calls made
are calls of an initial segment of the sorted matches. -/
theorem handleInterceptor_cases (sortSort : InterceptorSlice → InterceptorSlice)
    (p : Pipeline) (s : EventSession) :
    (p.handleInterceptor sortSort s).invoked <+: sortSort (matchingInterceptors p s) ∧
    (InterceptorForwarded (sortSort (matchingInterceptors p s)) s (p.handleInterceptor sortSort s) ∨
     InterceptorDroppedAt s (p.handleInterceptor sortSort s) ∨
     InterceptorPanickedAt p s (p.handleInterceptor sortSort s) ∨
     InterceptorFatalAt p s (p.handleInterceptor sortSort s)) := by
  have h := interceptorLoop_post p (sortSort (matchingInterceptors p s)) (Stage.start Interceptor s)
  unfold Pipeline.handleInterceptor
  simp only [← matchingInterceptors.eq_1]
  rcases hres : p.interceptorLoop (sortSort (matchingInterceptors p s)) (Stage.start Interceptor s)
    with ⟨w, f⟩
  rw [hres] at h
  obtain ⟨new, h1, h2, h3, h4⟩ := h
  simp only [Stage.start, List.nil_append] at h1 h2 h4
  cases f with
  | finished =>
    obtain ⟨a, b, c, d⟩ := h4
    simp only [Pipeline.checkRecover, Stage.invoked, h1, h2]
    refine ⟨h3, Or.inl ⟨a, b, by simp, by simpa [EventSession.AddAttribute] using c, d⟩⟩
  | returned =>
    obtain ⟨pre, c, a, b, c1, d, e, f⟩ := h4
    simp only [Pipeline.checkRecover, Stage.invoked, h1]
    exact ⟨h3, Or.inr (Or.inl ⟨pre, c, by rw [h1, a], b, c1, d, e, h2, f⟩)⟩
  | panicking v =>
    obtain ⟨pre, c, a, b, c1, d, e, f⟩ := h4
    obtain ⟨k1, k2, k3, k4⟩ := checkRecover_some p v w
    dsimp only
    refine ⟨?_, Or.inr (Or.inr (Or.inl ⟨pre, c, v, ?_, b, c1, ?_, ?_, ?_, ?_⟩))⟩
    · rw [Stage.invoked, k2, h1]; exact h3
    · rw [k2, h1, a]
    · rw [k1, d]
    · rw [k1, e]
    · rw [k3, h2]
    · exact k4
  | exited =>
    obtain ⟨hf, pre, c, e, a, b, c1, d, e1, f⟩ := h4
    simp only [Stage.invoked, h1]
    exact ⟨h3, Or.inr (Or.inr (Or.inr ⟨hf, pre, c, e, by rw [h1, a], b, c1, d, e1, h2, f⟩))⟩

/-- The three ways `handleDriver` ends, and in each of them the calls made are
calls of an initial segment of the matching drivers. -/
theorem handleDriver_cases (p : Pipeline) (s : EventSession) :
    (p.handleDriver s).invoked <+: matchingDrivers p.drivers s.Topic ∧
    (p.handleDriver s).endChan = [] ∧
    (DriverReplied p s (p.handleDriver s) ∨ DriverPanickedAt p s (p.handleDriver s) ∨
     DriverFatalAt p s (p.handleDriver s)) := by
  have h := driverLoop_post p p.drivers (Stage.start Driver s)
  unfold Pipeline.handleDriver
  rcases hres : p.driverLoop p.drivers (Stage.start Driver s) with ⟨w, f⟩
  rw [hres] at h
  obtain ⟨new, h1, h2, h3, h4, h5⟩ := h
  simp only [Stage.start, List.nil_append] at h1 h2 h3 h4 h5
  cases f with
  | finished =>
    obtain ⟨a, b, c⟩ := h5
    simp only [Pipeline.checkRecover, Pipeline.output, Stage.invoked, h1, h2]
    refine ⟨h4, trivial, Or.inl ⟨a, b, ?_, c⟩⟩
    simp [EventSession.AddAttribute, EventSession.Outbound, h3]
  | returned => exact absurd h5 id
  | panicking v =>
    obtain ⟨pre, c, a, b, c1, d, f⟩ := h5
    obtain ⟨k1, k2, k3, k4⟩ := checkRecover_some p v w
    dsimp only
    refine ⟨?_, ?_, Or.inr (Or.inl ⟨pre, c, v, ?_, b, c1, ?_, ?_, ?_⟩)⟩
    · rw [Stage.invoked, k2, h1]; exact h4
    · rw [k3, h2]
    · rw [k2, h1, a]
    · rw [k1, d]
    · rw [k1, h3]
    · exact k4
  | exited =>
    obtain ⟨hf, pre, c, e, a, b, c1, f⟩ := h5
    simp only [Stage.invoked, h1]
    exact ⟨h4, h2, Or.inr (Or.inr ⟨hf, pre, c, e, by rw [h1, a], b, c1, h3, f⟩)⟩

/-- A list that ends in `c` and holds `x` followed by something holds `x`
before its last element. -/
theorem mem_init_of_split {α : Type} {pre A B : List α} {c x : α}
    (h : pre ++ [c] = A ++ x :: B) (hB : B ≠ []) : x ∈ pre := by
  rcases List.eq_nil_or_concat B with hnil | ⟨B', b, hB'⟩
  · exact absurd hnil hB
  · subst hB'
    have h' : pre ++ [c] = (A ++ x :: B') ++ [b] := by simpa using h
    have := List.append_inj_left' h' rfl
    rw [this]
    simp

/-- The last element of a list written as a split: with nothing after `x`, it
is `x`. -/
theorem last_of_split {α : Type} {pre A : List α} {c x : α}
    (h : pre ++ [c] = A ++ [x]) : pre = A ∧ c = x := by
  have h1 := List.append_inj_left' h rfl
  have h2 := List.append_inj_right' h rfl
  exact ⟨h1, by simpa using h2⟩

/-- The first stage of `serve` is `handleInterceptor`. -/
theorem serve_interceptorStage (sortSort : InterceptorSlice → InterceptorSlice)
    (p : Pipeline) (s : EventSession) :
    (p.serve sortSort s).interceptorStage = p.handleInterceptor sortSort s := by
  simp only [Pipeline.serve]
  split <;> rfl

/-- With nothing on `endChan` the driver stage does not run. -/
theorem serve_of_endChan_nil (sortSort : InterceptorSlice → InterceptorSlice)
    (p : Pipeline) (s : EventSession) (h : (p.handleInterceptor sortSort s).endChan = []) :
    (p.serve sortSort s).driverStage = none ∧
    (p.serve sortSort s).outputChan = (p.handleInterceptor sortSort s).session.outputChan := by
  simp only [Served.outputChan, Pipeline.serve, h]
  exact ⟨trivial, trivial⟩

/-- With a session on `endChan` the driver stage runs on it. -/
theorem serve_of_endChan_cons (sortSort : InterceptorSlice → InterceptorSlice)
    (p : Pipeline) (s s1 : EventSession) (rest : List EventSession)
    (h : (p.handleInterceptor sortSort s).endChan = s1 :: rest) :
    (p.serve sortSort s).driverStage = some (p.handleDriver s1) ∧
    (p.serve sortSort s).outputChan = (p.handleDriver s1).session.outputChan := by
  simp only [Served.outputChan, Pipeline.serve, h]
  exact ⟨trivial, trivial⟩

/-! ## The sort routine, the maps and the deliverer -/

/-- Writing `a` over an element `y` of a list and putting `y` in front gives the
elements of the list with `a` in front. -/
theorem cons_set_perm {α : Type} (a y : α) :
    ∀ (t : List α) (j : Nat), t[j]? = some y → (y :: t.set j a).Perm (a :: t) := by
  intro t
  induction t with
  | nil => intro j h; simp at h
  | cons b t ih =>
    intro j h
    cases j with
    | zero =>
      simp only [List.getElem?_cons_zero, Option.some.injEq] at h
      subst h
      simpa using List.Perm.swap a b t
    | succ j =>
      simp only [List.getElem?_cons_succ] at h
      simp only [List.set_cons_succ]
      exact ((List.Perm.swap b y _).trans ((ih j h).cons b)).trans (List.Perm.swap a b t)

/-- A swap keeps the elements of the slice. -/
theorem sliceSwap_perm {α : Type} :
    ∀ (data : List α) (i j : Nat), (sliceSwap data i j).Perm data := by
  intro data
  induction data with
  | nil => intro i j; simp [sliceSwap]
  | cons a t ih =>
    intro i j
    unfold sliceSwap
    cases hi : (a :: t)[i]? with
    | none => exact List.Perm.refl _
    | some x =>
      cases hj : (a :: t)[j]? with
      | none => exact List.Perm.refl _
      | some y =>
        dsimp only
        cases i with
        | zero =>
          simp only [List.getElem?_cons_zero, Option.some.injEq] at hi
          subst hi
          cases j with
          | zero =>
            simp only [List.getElem?_cons_zero, Option.some.injEq] at hj
            subst hj
            simp
          | succ j =>
            simp only [List.getElem?_cons_succ] at hj
            simpa using cons_set_perm a y t j hj
        | succ i =>
          simp only [List.getElem?_cons_succ] at hi
          cases j with
          | zero =>
            simp only [List.getElem?_cons_zero, Option.some.injEq] at hj
            subst hj
            simpa using cons_set_perm a x t i hi
          | succ j =>
            simp only [List.getElem?_cons_succ] at hj
            have := ih i j
            simp only [sliceSwap, hi, hj] at this
            simpa using this.cons a

/-- The shell pass keeps the elements of the slice. -/
theorem shellPass_perm {α : Type} (less : α → α → Bool) (data : List α) :
    (shellPass less data).Perm data := by
  unfold shellPass
  generalize List.range' 6 (data.length - 6) = steps
  have key : ∀ (steps : List Nat) (d : List α), d.Perm data →
      (steps.foldl (shellStep less) d).Perm data := by
    intro steps
    induction steps with
    | nil => intro d hd; exact hd
    | cons i steps ih =>
      intro d hd
      simp only [List.foldl_cons]
      apply ih
      refine List.Perm.trans ?_ hd
      unfold shellStep
      split
      · split
        · exact sliceSwap_perm d i (i - 6)
        · exact List.Perm.refl d
      · exact List.Perm.refl d
  exact key steps data (List.Perm.refl data)

/-- Sinking an element keeps the elements. -/
theorem sinkLeft_perm {α : Type} (less : α → α → Bool) (x : α) :
    ∀ before : List α, (sinkLeft less x before).Perm (x :: before) := by
  intro before
  induction before with
  | nil => simp [sinkLeft]
  | cons y before ih =>
    unfold sinkLeft
    split
    · exact (ih.cons y).trans (List.Perm.swap x y before)
    · exact List.Perm.refl _

/-- The insertion loop keeps the elements. -/
theorem insertionLoop_perm {α : Type} (less : α → α → Bool) :
    ∀ (rest done : List α), (insertionLoop less done rest).Perm (done ++ rest) := by
  intro rest
  induction rest with
  | nil => intro done; simp [insertionLoop]
  | cons x rest ih =>
    intro done
    unfold insertionLoop
    refine (ih (sinkLeft less x done)).trans ?_
    refine ((sinkLeft_perm less x done).append_right rest).trans ?_
    have hmid : (done ++ x :: rest).Perm (x :: (done ++ rest)) := List.perm_middle
    simpa using hmid.symm

/-- Sinking an interceptor into a part that descends in priority leaves it
descending. -/
theorem sinkLeft_descending (x : Interceptor) :
    ∀ before : List Interceptor,
      before.Pairwise (fun u v => v.priority ≤ u.priority) →
      (sinkLeft InterceptorSlice.Less x before).Pairwise (fun u v => v.priority ≤ u.priority) := by
  intro before
  induction before with
  | nil => intro _; simp [sinkLeft]
  | cons y before ih =>
    intro h
    obtain ⟨hy, hb⟩ := List.pairwise_cons.mp h
    unfold sinkLeft
    by_cases hlt : x.priority < y.priority
    · simp only [InterceptorSlice.Less, hlt, decide_True, if_true]
      refine List.pairwise_cons.mpr ⟨?_, ih hb⟩
      intro v hv
      have hv' := (sinkLeft_perm InterceptorSlice.Less x before).mem_iff.mp hv
      rcases List.mem_cons.mp hv' with rfl | hv2
      · exact le_of_lt hlt
      · exact hy v hv2
    · simp only [InterceptorSlice.Less, hlt, decide_False, Bool.false_eq_true, if_false]
      refine List.pairwise_cons.mpr ⟨?_, h⟩
      intro v hv
      rcases List.mem_cons.mp hv with rfl | hv'
      · exact not_lt.mp hlt
      · exact le_trans (hy v hv') (not_lt.mp hlt)

/-- The insertion loop ends ascending in priority when the part already handled
descends, nearest first. -/
theorem insertionLoop_ascending :
    ∀ (rest done : List Interceptor),
      done.Pairwise (fun u v => v.priority ≤ u.priority) →
      (insertionLoop InterceptorSlice.Less done rest).Pairwise
        (fun a b => a.priority ≤ b.priority) := by
  intro rest
  induction rest with
  | nil =>
    intro done h
    simpa [insertionLoop, List.pairwise_reverse] using h
  | cons x rest ih =>
    intro done h
    unfold insertionLoop
    exact ih _ (sinkLeft_descending x done h)

/-- The small-slice routine of the library meets the contract of `sort.Sort`. -/
theorem sortSmall_contract : SortContract sortSmall := by
  intro data
  constructor
  · have h := insertionLoop_perm InterceptorSlice.Less (shellPass InterceptorSlice.Less data) []
    exact (by simpa [sortSmall, insertionSort] using h : (sortSmall data).Perm _).trans
      (shellPass_perm _ data)
  · have h := insertionLoop_ascending (shellPass InterceptorSlice.Less data) [] List.Pairwise.nil
    refine List.Pairwise.imp ?_ (by simpa [sortSmall, insertionSort] using h)
    intro a b hab
    simp [InterceptorSlice.Less, hab]

/-- A map read of the key just written gives the value written. -/
theorem get_put (m : JSONPacket) (k : String) (v : Value) :
    JSONPacket.get (JSONPacket.put m k v) k = some v := by
  induction m with
  | nil => simp [JSONPacket.put, JSONPacket.get]
  | cons b rest ih =>
    obtain ⟨k1, v1⟩ := b
    by_cases h : k1 = k
    · simp [JSONPacket.put, JSONPacket.get, h]
    · simp [JSONPacket.put, JSONPacket.get, h, ih]

/-- A result that passes or returns is not the drop sentinel where it passes,
and not a panic where it returns. -/
theorem passes_not_drop {o : Outcome} (h : o.passes = true) :
    o ≠ Outcome.err ErrInterceptorDropped ∧ ∀ v, o ≠ Outcome.panic v := by
  cases o with
  | ok => exact ⟨by simp, by simp⟩
  | err e =>
    refine ⟨?_, by simp⟩
    intro he
    simp only [Outcome.err.injEq] at he
    simp [Outcome.passes, he] at h
  | panic r => simp [Outcome.passes] at h

/-- The loop over the logic devices stops at the first device whose
`CheckIfMatch` holds, and binds the two logic attributes only then. -/
theorem findLogic_eq (inputJSON : JSONPacket) :
    ∀ (l : List LogicDevice) (attributes : JSONPacket) (consulted : List LogicDevice),
      (findLogic inputJSON l attributes consulted).1
        = l.find? (fun item => item.CheckIfMatch inputJSON) ∧
      (findLogic inputJSON l attributes consulted).2.1
        = (match l.find? (fun item => item.CheckIfMatch inputJSON) with
           | some item =>
             (attributes.put "@InputDevice.Logic.Type" (Value.str item.className)).put
               "@InputDevice.Logic.Name" (Value.str item.name)
           | none => attributes) := by
  intro l
  induction l with
  | nil => intro attributes consulted; simp [findLogic]
  | cons item rest ih =>
    intro attributes consulted
    unfold findLogic
    cases h : item.CheckIfMatch inputJSON with
    | true => simp [List.find?, h]
    | false =>
      simp only [Bool.false_eq_true, if_false, List.find?, h]
      exact ih attributes (consulted ++ [item])

/-- The deliverer sends exactly the session `newEventSession` builds, once the
frame has a payload and the decoder accepts it. -/
theorem newInputDeliverer_startC (sortSort : InterceptorSlice → InterceptorSlice)
    (p : Pipeline) (now : Nat) (masterInput : InputDevice) (topic : String)
    (rawFrame : FramePacket) (inputFrame : Bytes) (inputJSON : JSONPacket)
    (hframe : rawFrame.Data = some inputFrame)
    (hdec : masterInput.Decode inputFrame = Except.ok inputJSON) :
    (p.newInputDeliverer sortSort now masterInput topic rawFrame).startC
      = [(newEventSession now masterInput topic inputJSON).1] := by
  simp only [Pipeline.newInputDeliverer, hframe, hdec]
  split
  · rfl
  · split <;> rfl

/-! ## The start sequence -/

/-- An event of a walk comes from the call on one element of the collection. -/
theorem mem_ForEach {α : Type} (f : α → List StartEvent) (e : StartEvent) :
    ∀ items : List α, e ∈ ForEach items f ↔ ∃ x ∈ items, e ∈ f x := by
  intro items
  induction items with
  | nil => simp [ForEach]
  | cons x rest ih => simp [ForEach, ih]

/-- A walk whose calls show nothing through a filter shows nothing. -/
theorem filterMap_ForEach_nil {α β : Type} (g : StartEvent → Option β)
    (f : α → List StartEvent) (h : ∀ x, (f x).filterMap g = []) :
    ∀ items : List α, (ForEach items f).filterMap g = [] := by
  intro items
  induction items with
  | nil => simp [ForEach]
  | cons x rest ih => simp [ForEach, ih, h]

/-- A walk whose calls each show one value through a filter shows the values of
the collection, in order. -/
theorem filterMap_ForEach_map {α β : Type} (g : StartEvent → Option β)
    (f : α → List StartEvent) (v : α → β) (h : ∀ x, (f x).filterMap g = [v x]) :
    ∀ items : List α, (ForEach items f).filterMap g = items.map v := by
  intro items
  induction items with
  | nil => simp [ForEach]
  | cons x rest ih => simp [ForEach, ih, h]

/-- The `OnStart` calls of a walk with `startFn` are the lifecycle-capable
components of the collection, in order. -/
theorem startCalls_ForEach_startFn {α : Type} (group : Group) (c : α → Component) :
    ∀ items : List α,
      startCalls (ForEach items (fun it => startFn group (c it))) = capable group (items.map c) := by
  intro items
  induction items with
  | nil => simp [ForEach, startCalls, capable]
  | cons x rest ih =>
    simp only [startCalls, ForEach, List.filterMap_append] at ih ⊢
    rw [ih]
    cases h : (c x).LifeCycle <;> simp [startFn, CheckTimeout, capable, h]

/-- Events of one phase are in sequence. -/
theorem sorted_of_phase {l : List StartEvent} {k : Nat} (h : ∀ e ∈ l, e.phase = k) :
    l.Pairwise (fun a b => a.phase ≤ b.phase) := by
  induction l with
  | nil => exact List.Pairwise.nil
  | cons a rest ih =>
    refine List.pairwise_cons.mpr ⟨?_, ih (fun e he => h e (List.mem_cons_of_mem a he))⟩
    intro b hb
    rw [h a (List.mem_cons_self a rest), h b (List.mem_cons_of_mem a hb)]

/-- Events of one phase in front of a sequence of later phases make a
sequence. -/
theorem sorted_phase_append {l1 l2 : List StartEvent} {k k2 : Nat} (hk : k ≤ k2)
    (h1 : ∀ e ∈ l1, e.phase = k)
    (h2 : l2.Pairwise (fun a b => a.phase ≤ b.phase) ∧ ∀ e ∈ l2, k2 ≤ e.phase) :
    (l1 ++ l2).Pairwise (fun a b => a.phase ≤ b.phase) ∧ ∀ e ∈ l1 ++ l2, k ≤ e.phase := by
  constructor
  · refine List.pairwise_append.mpr ⟨sorted_of_phase h1, h2.1, ?_⟩
    intro a ha b hb
    rw [h1 a ha]
    exact le_trans hk (h2.2 b hb)
  · intro e he
    rcases List.mem_append.mp he with he | he
    · exact le_of_eq (h1 e he).symm
    · exact le_trans hk (h2.2 e he)

/-- The events of a walk with `startFn` over a collection other than the logic
devices have the phase of the collection. -/
theorem phase_ForEach_startFn {α : Type} (group : Group) (k : Nat) (c : α → Component)
    (hk : ∀ name, (StartEvent.OnStart group name).phase = k) (items : List α) :
    ∀ e ∈ ForEach items (fun it => startFn group (c it)), e.phase = k := by
  intro e he
  obtain ⟨x, -, hx⟩ := (mem_ForEach _ e items).mp he
  unfold startFn CheckTimeout at hx
  split at hx
  · rw [List.mem_singleton.mp hx]
    exact hk _
  · exact absurd hx (List.not_mem_nil e)

/-- The `OnStart` calls of two runs in a row are those of the first, then those
of the second. -/
theorem startCalls_append (a b : List StartEvent) :
    startCalls (a ++ b) = startCalls a ++ startCalls b := by
  simp [startCalls]

/-- The `OnStart` calls of a walk with `startFn` over a collection of
components. -/
theorem startCalls_ForEach_components (group : Group) (items : List Component) :
    startCalls (ForEach items (startFn group)) = capable group items := by
  simpa using startCalls_ForEach_startFn group id items

/-- The `OnStart` calls of a run of `Start`: the lifecycle-capable plugins,
outputs, drivers and inputs. -/
theorem startCalls_Start (p : Register) :
    startCalls (Pipeline.Start p) =
      capable Group.plugins p.plugins ++ capable Group.outputs p.outputs
        ++ capable Group.drivers p.drivers
        ++ capable Group.inputs (p.inputs.map InputComponent.component) := by
  have hb : startCalls (ForEach p.startBeforeHooks (fun it => [StartEvent.startBeforeHook it]))
      = [] := filterMap_ForEach_nil _ _ (fun _ => by rfl) _
  have ha : startCalls (ForEach p.startAfterHooks (fun it => [StartEvent.startAfterHook it]))
      = [] := filterMap_ForEach_nil _ _ (fun _ => by rfl) _
  have hs : startCalls (ForEach p.inputs (fun it => [StartEvent.Serve it.uuid]))
      = [] := filterMap_ForEach_nil _ _ (fun _ => by rfl) _
  simp only [Pipeline.Start, startCalls_append, hb, ha, hs, startCalls_ForEach_components,
    startCalls_ForEach_startFn Group.inputs InputComponent.component, List.nil_append,
    List.append_nil]

/-- The last element of a list is among the elements from any of its positions
on. -/
theorem last_mem_tail_of_split {α : Type} {l pre post : List α} {c1 c : α}
    (h : l ++ [c1] = pre ++ c :: post) : c1 ∈ c :: post := by
  rcases List.eq_nil_or_concat post with hnil | ⟨B, b, hB⟩
  · subst hnil
    rw [(last_of_split h).2]
    exact List.mem_singleton.mpr rfl
  · subst hB
    have h2 : l ++ [c1] = (pre ++ c :: B) ++ [b] := by simpa using h
    rw [(last_of_split h2).2]
    simp

/-! ## The claims -/

/-- C1, reply completeness. With fail-fast off, when every call of `Handle` made
for the session returns (nil, the drop sentinel or any other error), running
`handleInterceptor` and then, if the session went to `endChan`, `handleDriver`
sends exactly one value on the reply channel of the session: the channel ends
as it began with one value added. -/
theorem reply_completeness (sortSort : InterceptorSlice → InterceptorSlice)
    (p : Pipeline) (s : EventSession)
    (hff : p.context.failFast = false)
    (hI : ∀ c ∈ (p.serve sortSort s).interceptorStage.calls, c.effect.result.returns = true)
    (hD : ∀ w, (p.serve sortSort s).driverStage = some w →
      ∀ c ∈ w.calls, c.effect.result.returns = true) :
    ∃ reply, (p.serve sortSort s).outputChan = s.outputChan ++ [reply] := by
  rw [serve_interceptorStage] at hI
  obtain ⟨-, hcase⟩ := handleInterceptor_cases sortSort p s
  rcases hcase with ⟨-, -, hend, hout, -⟩ | ⟨pre, c, -, -, -, -, hout, hend, -⟩ |
      ⟨pre, c, v, hc, -, hp, -⟩ | ⟨hf, -⟩
  · obtain ⟨hd, hchan⟩ := serve_of_endChan_cons sortSort p s _ [] hend
    obtain ⟨-, -, hdr⟩ := handleDriver_cases p (p.handleInterceptor sortSort s).session
    rcases hdr with ⟨-, -, hout', -⟩ | ⟨pre, c, v, hc, -, hp, -⟩ | ⟨hf, -⟩
    · exact ⟨_, by rw [hchan, hout', hout]⟩
    · have := hD _ hd c (by rw [hc]; simp)
      rw [hp] at this
      exact absurd this (by simp [Outcome.returns])
    · rw [hff] at hf
      exact absurd hf (by simp)
  · obtain ⟨-, hchan⟩ := serve_of_endChan_nil sortSort p s hend
    exact ⟨_, by rw [hchan, hout]⟩
  · have := hI c (by rw [hc]; simp)
    rw [hp] at this
    exact absurd this (by simp [Outcome.returns])
  · rw [hff] at hf
    exact absurd hf (by simp)

/-- C1 at a pipeline whose interceptor returns an error and whose driver returns
nil: the session gets its one reply. -/
theorem reply_completeness_witness :
    ∃ reply, (pipelineErr.serve id sessionX).outputChan = sessionX.outputChan ++ [reply] :=
  reply_completeness id pipelineErr sessionX (by decide) (by decide) (by decide)

/-- C2, drop terminality. Once a call of an interceptor's `Handle` has returned
`ErrInterceptorDropped`, that call is the last one `handleInterceptor` makes:
the interceptors called are an initial segment of the sorted matches that ends
with the dropping one, the session is not sent on `endChan`, and the driver
stage does not run for the session. -/
theorem drop_terminality (sortSort : InterceptorSlice → InterceptorSlice)
    (p : Pipeline) (s : EventSession)
    (pre post : List (Call Interceptor)) (c : Call Interceptor)
    (hcalls : (p.handleInterceptor sortSort s).calls = pre ++ c :: post)
    (hdrop : c.effect.result = Outcome.err ErrInterceptorDropped) :
    post = [] ∧
    (p.handleInterceptor sortSort s).invoked <+: sortSort (matchingInterceptors p s) ∧
    (p.handleInterceptor sortSort s).endChan = [] ∧
    (p.serve sortSort s).driverStage = none := by
  obtain ⟨hpre, hcase⟩ := handleInterceptor_cases sortSort p s
  have hin : ∀ l : List (Call Interceptor), (∀ c' ∈ l, c'.effect.result.passes = true) →
      c ∉ l := by
    intro l hl hc
    exact (passes_not_drop (hl c hc)).1 hdrop
  have hlast : ∀ (l : List (Call Interceptor)) (c1 : Call Interceptor),
      (p.handleInterceptor sortSort s).calls = l ++ [c1] →
      (∀ c' ∈ l, c'.effect.result.passes = true) → post = [] := by
    intro l c1 hl hpass
    by_contra hne
    exact hin l hpass (mem_init_of_split (hl.symm.trans hcalls) hne)
  rcases hcase with ⟨-, hall, -⟩ | ⟨l, c1, hl, hpass, -, -, -, hend, -⟩ |
      ⟨l, c1, v, hl, hpass, hp, -⟩ | ⟨-, l, c1, e, hl, hpass, he, hne, -⟩
  · exact absurd (by rw [hcalls]; simp) (hin _ hall)
  · exact ⟨hlast l c1 hl hpass, hpre, hend, (serve_of_endChan_nil sortSort p s hend).1⟩
  · have hpost := hlast l c1 hl hpass
    subst hpost
    obtain ⟨-, hcc⟩ := last_of_split (hl.symm.trans hcalls)
    rw [hcc, hdrop] at hp
    exact absurd hp (by simp)
  · have hpost := hlast l c1 hl hpass
    subst hpost
    obtain ⟨-, hcc⟩ := last_of_split (hl.symm.trans hcalls)
    rw [hcc, hdrop] at he
    simp only [Outcome.err.injEq] at he
    exact absurd he.symm hne

/-- C2 at the pipeline where `A` (priority 10) drops and `B` (priority 20) is
registered first: the call of `A` is the only call, and no driver runs. -/
theorem drop_terminality_witness :
    (pipelineDrop.handleInterceptor sortSmall sessionX).invoked.map Interceptor.name = ["A"] ∧
    (([] : List (Call Interceptor)) = [] ∧
      (pipelineDrop.handleInterceptor sortSmall sessionX).invoked
        <+: sortSmall (matchingInterceptors pipelineDrop sessionX) ∧
      (pipelineDrop.handleInterceptor sortSmall sessionX).endChan = [] ∧
      (pipelineDrop.serve sortSmall sessionX).driverStage = none) :=
  ⟨by decide,
   drop_terminality sortSmall pipelineDrop sessionX []
     [] ⟨interceptorX "A" 10 (Outcome.err ErrInterceptorDropped),
         keep sessionX (Outcome.err ErrInterceptorDropped)⟩ rfl rfl⟩

/-- C3 as stated fails. With fail-fast off, at the pipeline whose interceptor
panics the worker recovers, and at the pipeline whose first driver panics the
worker recovers, but in both the outbound data has no `error` field and nothing
is sent on the reply channel of the session; a deliverer that submitted the
session never returns. -/
theorem panic_recovery_counterexample :
    ((pipelinePanic.handleInterceptor sortSmall sessionX).exit = Exit.recovered ∧
      JSONPacket.get (pipelinePanic.handleInterceptor sortSmall sessionX).session.outbound.Data
        "error" = none ∧
      (pipelinePanic.serve sortSmall sessionX).driverStage = none ∧
      (pipelinePanic.serve sortSmall sessionX).outputChan = []) ∧
    ((pipelineDriverPanic.handleDriver sessionX).exit = Exit.recovered ∧
      JSONPacket.get (pipelineDriverPanic.handleDriver sessionX).session.outbound.Data
        "error" = none ∧
      (pipelineDriverPanic.handleDriver sessionX).session.outputChan = []) ∧
    (pipelinePanic.newInputDeliverer sortSmall 0 inputPlain "/x" { Data := some [1] }).returned
      = false :=
  ⟨⟨by decide, by decide, rfl, by decide⟩, ⟨by decide, by decide, by decide⟩, by decide⟩

/-- C3 as amended. With fail-fast off, when a call of an interceptor's or a
driver's `Handle` panics, the stage recovers and its worker returns; the
outbound message stays as the panicking handler left it, the pipeline adding no
field to it; nothing is sent on the reply channel of the session, and after an
interceptor panic the session is not sent on `endChan` and no driver runs. -/
theorem panic_recovery_amended (sortSort : InterceptorSlice → InterceptorSlice)
    (p : Pipeline) (s : EventSession) (hff : p.context.failFast = false) :
    (∀ c ∈ (p.handleInterceptor sortSort s).calls, ∀ v, c.effect.result = Outcome.panic v →
      (p.handleInterceptor sortSort s).exit = Exit.recovered ∧
      (p.handleInterceptor sortSort s).session.outbound = c.effect.outbound ∧
      (p.handleInterceptor sortSort s).session.outputChan = s.outputChan ∧
      (p.handleInterceptor sortSort s).endChan = [] ∧
      (p.serve sortSort s).driverStage = none ∧
      (p.serve sortSort s).outputChan = s.outputChan) ∧
    (∀ c ∈ (p.handleDriver s).calls, ∀ v, c.effect.result = Outcome.panic v →
      (p.handleDriver s).exit = Exit.recovered ∧
      (p.handleDriver s).session.outbound = c.effect.outbound ∧
      (p.handleDriver s).session.outputChan = s.outputChan) := by
  constructor
  · intro c hc v hv
    have hnp : c.effect.result.passes ≠ true := by rw [hv]; simp [Outcome.passes]
    obtain ⟨-, hcase⟩ := handleInterceptor_cases sortSort p s
    rcases hcase with ⟨-, hall, -⟩ | ⟨l, c1, hl, hpass, hd, -⟩ |
        ⟨l, c1, v1, hl, hpass, hp, hout, hchan, hend, hexit⟩ | ⟨hf, -⟩
    · exact absurd (hall c hc) hnp
    · rw [hl, List.mem_append, List.mem_singleton] at hc
      rcases hc with hc | rfl
      · exact absurd (hpass c hc) hnp
      · rw [hv] at hd
        exact absurd hd (by simp)
    · rw [hl, List.mem_append, List.mem_singleton] at hc
      rcases hc with hc | rfl
      · exact absurd (hpass c hc) hnp
      · obtain ⟨hnone, hserve⟩ := serve_of_endChan_nil sortSort p s hend
        refine ⟨by rw [hexit, hff]; rfl, hout, hchan, hend, hnone, by rw [hserve, hchan]⟩
    · rw [hff] at hf
      exact absurd hf (by simp)
  · intro c hc v hv
    have hnp : c.effect.result.returns ≠ true := by rw [hv]; simp [Outcome.returns]
    obtain ⟨-, -, hcase⟩ := handleDriver_cases p s
    rcases hcase with ⟨-, hall, -⟩ | ⟨l, c1, v1, hl, hpass, hp, hout, hchan, hexit⟩ | ⟨hf, -⟩
    · exact absurd (hall c hc) hnp
    · rw [hl, List.mem_append, List.mem_singleton] at hc
      rcases hc with hc | rfl
      · exact absurd (hpass c hc) hnp
      · exact ⟨by rw [hexit, hff]; rfl, hout, hchan⟩
    · rw [hff] at hf
      exact absurd hf (by simp)

/-- C3 as amended, at the pipeline whose interceptor panics: the worker
recovers, the outbound message is the one the handler left, and the session
gets no reply and reaches no driver. -/
theorem panic_recovery_amended_witness :
    (pipelinePanic.handleInterceptor sortSmall sessionX).exit = Exit.recovered ∧
    (pipelinePanic.handleInterceptor sortSmall sessionX).session.outbound = sessionX.outbound ∧
    (pipelinePanic.handleInterceptor sortSmall sessionX).session.outputChan = [] ∧
    (pipelinePanic.handleInterceptor sortSmall sessionX).endChan = [] ∧
    (pipelinePanic.serve sortSmall sessionX).driverStage = none ∧
    (pipelinePanic.serve sortSmall sessionX).outputChan = [] :=
  (panic_recovery_amended sortSmall pipelinePanic sessionX rfl).1
    ⟨interceptorX "P" 10 (Outcome.panic (PanicValue.other "nil map")),
     keep sessionX (Outcome.panic (PanicValue.other "nil map"))⟩
    (List.mem_singleton.mpr rfl) (PanicValue.other "nil map") rfl

/-- C4 as stated fails. With the seven interceptors registered as `i1` (priority
1) then `i2` to `i7` (priority 0), `handleInterceptor` with the library's sort
of the repository's time calls `i7` first, before `i2` to `i6` of the same
priority that were registered before it; the stable sort starts with `i2`. -/
theorem priority_order_counterexample :
    (pipelineSeven.handleInterceptor sortSmall sessionX).invoked.map Interceptor.name
      = ["i7", "i2", "i3", "i4", "i5", "i6", "i1"] ∧
    (stableSortByPriority (matchingInterceptors pipelineSeven sessionX)).map Interceptor.name
      = ["i2", "i3", "i4", "i5", "i6", "i7", "i1"] ∧
    (pipelineSeven.handleInterceptor sortSmall sessionX).invoked
      ≠ stableSortByPriority (matchingInterceptors pipelineSeven sessionX) := by
  refine ⟨by decide, by decide, ?_⟩
  intro h
  have h2 := congrArg (List.map Interceptor.name) h
  revert h2
  decide

/-- C4 as amended. Whatever routine stands for `sort.Sort`, as long as it meets
the library's contract, the interceptors `handleInterceptor` calls are, in call
order, an initial segment of the sorted slice, which holds exactly the matching
interceptors; they are called in ascending priority, a lower priority before a
higher one; and with fail-fast off and no call dropping or panicking, the whole
sorted slice is called. The order among equal priorities is the library's. -/
theorem priority_order_amended (sortSort : InterceptorSlice → InterceptorSlice)
    (hsort : SortContract sortSort) (p : Pipeline) (s : EventSession) :
    (p.handleInterceptor sortSort s).invoked <+: sortSort (matchingInterceptors p s) ∧
    (sortSort (matchingInterceptors p s)).Perm (matchingInterceptors p s) ∧
    (p.handleInterceptor sortSort s).invoked.Pairwise (fun a b => a.priority ≤ b.priority) ∧
    (p.context.failFast = false →
      (∀ c ∈ (p.handleInterceptor sortSort s).calls, c.effect.result.passes = true) →
      (p.handleInterceptor sortSort s).invoked = sortSort (matchingInterceptors p s)) := by
  obtain ⟨hperm, hord⟩ := hsort (matchingInterceptors p s)
  obtain ⟨hpre, hcase⟩ := handleInterceptor_cases sortSort p s
  have hasc : (sortSort (matchingInterceptors p s)).Pairwise
      (fun a b => a.priority ≤ b.priority) := by
    refine List.Pairwise.imp ?_ hord
    intro a b hab
    simpa [InterceptorSlice.Less] using hab
  refine ⟨hpre, hperm, hasc.sublist hpre.sublist, ?_⟩
  intro hff hall
  rcases hcase with ⟨hinv, -⟩ | ⟨l, c1, hl, -, hd, -⟩ | ⟨l, c1, v1, hl, -, hp, -⟩ | ⟨hf, -⟩
  · exact hinv
  · exact absurd hd (passes_not_drop (hall c1 (by rw [hl]; simp))).1
  · exact absurd hp ((passes_not_drop (hall c1 (by rw [hl]; simp))).2 v1)
  · rw [hff] at hf
    exact absurd hf (by simp)

/-- C4 as amended, at the seven interceptors with the library's small-slice
routine: the calls are in ascending priority and cover the sorted slice. -/
theorem priority_order_amended_witness :
    (pipelineSeven.handleInterceptor sortSmall sessionX).invoked
      <+: sortSmall (matchingInterceptors pipelineSeven sessionX) ∧
    (sortSmall (matchingInterceptors pipelineSeven sessionX)).Perm
      (matchingInterceptors pipelineSeven sessionX) ∧
    (pipelineSeven.handleInterceptor sortSmall sessionX).invoked.Pairwise
      (fun a b => a.priority ≤ b.priority) ∧
    (pipelineSeven.context.failFast = false →
      (∀ c ∈ (pipelineSeven.handleInterceptor sortSmall sessionX).calls,
        c.effect.result.passes = true) →
      (pipelineSeven.handleInterceptor sortSmall sessionX).invoked
        = sortSmall (matchingInterceptors pipelineSeven sessionX)) :=
  priority_order_amended sortSmall sortSmall_contract pipelineSeven sessionX

/-- C5, the decode failure. At an output device registered under `out1` whose
encoder and `Process` succeed and whose decoder fails, `deliverToOutput`
returns a nil mapping with a nil error: the failure is wrapped around `encErr`,
which is nil there, and `errors.WithMessage` of nil is nil. -/
theorem deliverToOutput_decode_failure_nil_error :
    lookupOutput pipelineBadDecode.uuidOutputs "out1" = some outputBadDecode ∧
    outputBadDecode.Encode [("v", Value.int 1)] = Except.ok [1] ∧
    outputBadDecode.Process [1] pipelineBadDecode.context = Except.ok [1] ∧
    outputBadDecode.Decode [1] = Except.error (GoError.new "unexpected end of JSON input") ∧
    pipelineBadDecode.deliverToOutput "out1" [("v", Value.int 1)] = (none, none) :=
  ⟨rfl, rfl, rfl, rfl, rfl⟩

/-- C6, logic device rerouting. For a frame with a payload that the decoder of
the input reads as `payload`, the deliverer sends one session on the start
channel. With `l` the first logic device of the input whose `CheckIfMatch` holds
of the payload, the session carries the topic and uuid of `l`, the inbound data
`l.Transform payload`, and the two logic attributes beside the two input
attributes; with no such device it carries the caller's topic, the uuid of the
input, the payload as decoded, and the two input attributes only. -/
theorem logic_rerouting (sortSort : InterceptorSlice → InterceptorSlice)
    (p : Pipeline) (now : Nat) (masterInput : InputDevice) (topic : String)
    (rawFrame : FramePacket) (inputFrame : Bytes) (payload : JSONPacket)
    (hframe : rawFrame.Data = some inputFrame)
    (hdec : masterInput.Decode inputFrame = Except.ok payload) :
    ∃ session : EventSession,
      (p.newInputDeliverer sortSort now masterInput topic rawFrame).startC = [session] ∧
      session.outbound.Data = [] ∧ session.outputChan = [] ∧
      match masterInput.logicDevices.find? (fun item => item.CheckIfMatch payload) with
      | some l =>
        session.topic = l.topic ∧ session.uuid = l.uuid ∧
        session.inbound = { Topic := l.topic, Data := l.Transform payload } ∧
        session.attributes =
          [("@InputDevice.Type", Value.str masterInput.className),
           ("@InputDevice.Name", Value.str masterInput.name),
           ("@InputDevice.Logic.Type", Value.str l.className),
           ("@InputDevice.Logic.Name", Value.str l.name)]
      | none =>
        session.topic = topic ∧ session.uuid = masterInput.uuid ∧
        session.inbound = { Topic := topic, Data := payload } ∧
        session.attributes =
          [("@InputDevice.Type", Value.str masterInput.className),
           ("@InputDevice.Name", Value.str masterInput.name)] := by
  refine ⟨_, newInputDeliverer_startC sortSort p now masterInput topic rawFrame inputFrame
    payload hframe hdec, ?_⟩
  obtain ⟨h1, h2⟩ := findLogic_eq payload masterInput.logicDevices
    ((JSONPacket.put [] "@InputDevice.Type" (Value.str masterInput.className)).put
      "@InputDevice.Name" (Value.str masterInput.name)) []
  simp only [newEventSession]
  rcases hres : findLogic payload masterInput.logicDevices
    ((JSONPacket.put [] "@InputDevice.Type" (Value.str masterInput.className)).put
      "@InputDevice.Name" (Value.str masterInput.name)) [] with ⟨logic, attributes, consulted⟩
  rw [hres] at h1 h2
  simp only at h1 h2
  rw [← h1]
  cases logic with
  | none =>
    rw [← h1] at h2
    simp only at h2
    simp [h2, JSONPacket.put]
  | some l =>
    rw [← h1] at h2
    simp only at h2
    simp [h2, JSONPacket.put]

/-- C6 at an input whose second logic device is the first to match: the session
goes out under that device's topic and uuid, with the transformed payload and
the four attributes. -/
theorem logic_rerouting_witness :
    ∃ session : EventSession,
      (pipelineErr.newInputDeliverer sortSmall 3 inputOne "/a" { Data := some [1] }).startC
        = [session] ∧
      session.outbound.Data = [] ∧ session.outputChan = [] ∧
      session.topic = "/sensor/temp" ∧ session.uuid = "uuid-L" ∧
      session.inbound = { Topic := "/sensor/temp",
                          Data := [("kind", Value.str "temp"), ("via", Value.str "L")] } ∧
      session.attributes =
        [("@InputDevice.Type", Value.str "Input"), ("@InputDevice.Name", Value.str "in1"),
         ("@InputDevice.Logic.Type", Value.str "Logic"),
         ("@InputDevice.Logic.Name", Value.str "L")] :=
  match logic_rerouting sortSmall pipelineErr 3 inputOne "/a" { Data := some [1] } [1]
    [("kind", Value.str "temp")] rfl rfl with
  | ⟨session, h1, h2, h3, h4⟩ => ⟨session, h1, h2, h3, h4⟩

/-- C7 as stated fails. With fail-fast off and two drivers on the topic of the
session, the first of which panics, `handleDriver` calls the first only: the
second matches and is never called. -/
theorem driver_selection_counterexample :
    (pipelineDriverPanic.drivers.filter
        (fun d => anyTopicMatches d.topicExprs sessionX.Topic)).map Driver.name = ["D1", "D2"] ∧
    (pipelineDriverPanic.handleDriver sessionX).invoked.map Driver.name = ["D1"] ∧
    (pipelineDriverPanic.handleDriver sessionX).invoked ≠
      pipelineDriverPanic.drivers.filter
        (fun d => anyTopicMatches d.topicExprs sessionX.Topic) := by
  refine ⟨by decide, by decide, ?_⟩
  intro h
  have h2 := congrArg (List.map Driver.name) h
  revert h2
  decide

/-- C7 as amended. The drivers `handleDriver` calls are, in call order, an
initial segment of the registered drivers whose patterns match the topic of the
session, taken in registration order, so no driver is called that does not
match; when every call made returns and the process is not ended (fail-fast is
off, or every call returns nil), they are exactly those drivers, each called
once per registration. `anyTopicMatches` holds exactly when some pattern of the
list matches the topic, and never for the empty list. -/
theorem driver_selection_amended (p : Pipeline) (s : EventSession) :
    (p.handleDriver s).invoked <+:
      p.drivers.filter (fun d => anyTopicMatches d.topicExprs s.Topic) ∧
    ((∀ c ∈ (p.handleDriver s).calls, c.effect.result.returns = true) →
      (p.context.failFast = false ∨
        ∀ c ∈ (p.handleDriver s).calls, c.effect.result = Outcome.ok) →
      (p.handleDriver s).invoked =
        p.drivers.filter (fun d => anyTopicMatches d.topicExprs s.Topic)) ∧
    (∀ (expected : List TopicExpr) (topic : String),
      anyTopicMatches expected topic = true ↔ ∃ t ∈ expected, t.«matches» topic = true) ∧
    (∀ topic : String, anyTopicMatches [] topic = false) := by
  obtain ⟨hpre, -, hcase⟩ := handleDriver_cases p s
  refine ⟨hpre, ?_, ?_, fun _ => rfl⟩
  · intro hret hlive
    rcases hcase with ⟨hinv, -⟩ | ⟨l, c1, v1, hl, -, hp, -⟩ | ⟨hf, l, c1, e, hl, -, he, -⟩
    · exact hinv
    · have := hret c1 (by rw [hl]; simp)
      rw [hp] at this
      exact absurd this (by simp [Outcome.returns])
    · rcases hlive with hff | hok
      · rw [hff] at hf
        exact absurd hf (by simp)
      · have := hok c1 (by rw [hl]; simp)
        rw [he] at this
        exact absurd this (by simp)
  · intro expected topic
    induction expected with
    | nil => simp [anyTopicMatches]
    | cons t rest ih =>
      unfold anyTopicMatches
      cases ht : t.«matches» topic with
      | true => simp [ht]
      | false => simp [ht, ih]

/-- C8 as stated fails. With fail-fast off, at a pipeline whose interceptors on
the topic are `A` (returns a plain error), `B` (panics) and `C`, the stage calls
`A` and `B` only: `C` comes later than the erroring `A`, matches, and is never
called, and the session is not sent on `endChan`. Likewise with drivers `D1`
(returns an error), `D2` (panics) and `D3`: `D3` is never called and no reply is
sent. -/
theorem handler_errors_continue_counterexample :
    pipelineErrorThenPanic.context.failFast = false ∧
    ((sortSmall (matchingInterceptors pipelineErrorThenPanic sessionX)).map Interceptor.name
        = ["A", "B", "C"] ∧
      (pipelineErrorThenPanic.handleInterceptor sortSmall sessionX).invoked.map Interceptor.name
        = ["A", "B"] ∧
      (pipelineErrorThenPanic.handleInterceptor sortSmall sessionX).errors
        = [GoError.new "boom"] ∧
      (pipelineErrorThenPanic.handleInterceptor sortSmall sessionX).endChan = [] ∧
      (pipelineErrorThenPanic.serve sortSmall sessionX).driverStage = none) ∧
    ((pipelineErrorThenPanic.drivers.filter
          (fun d => anyTopicMatches d.topicExprs sessionX.Topic)).map Driver.name
        = ["D1", "D2", "D3"] ∧
      (pipelineErrorThenPanic.handleDriver sessionX).invoked.map Driver.name = ["D1", "D2"] ∧
      (pipelineErrorThenPanic.handleDriver sessionX).errors = [GoError.new "bang"] ∧
      (pipelineErrorThenPanic.handleDriver sessionX).session.outputChan = []) :=
  ⟨rfl, ⟨by decide, by decide, by decide, by decide, rfl⟩,
    by decide, by decide, by decide, by decide⟩

/-- C8 as amended. With fail-fast off, an error other than
`ErrInterceptorDropped` returned by a `Handle` does not by itself stop the
stage. When a call of an interceptor returned such an error and no later call of
the stage dropped or panicked, every sorted match has been called, the session
is on `endChan` and the driver stage runs on it. When a call of a driver
returned an error and no later call of the stage panicked, every matching driver
has been called and the outbound data has been sent as the reply. -/
theorem handler_errors_continue_amended (sortSort : InterceptorSlice → InterceptorSlice)
    (p : Pipeline) (s s1 : EventSession) (hff : p.context.failFast = false) :
    (∀ (pre post : List (Call Interceptor)) (c : Call Interceptor) (e : GoError),
      (p.handleInterceptor sortSort s).calls = pre ++ c :: post →
      c.effect.result = Outcome.err e → e ≠ ErrInterceptorDropped →
      (∀ c' ∈ post, c'.effect.result.passes = true) →
      (p.handleInterceptor sortSort s).invoked = sortSort (matchingInterceptors p s) ∧
      (p.handleInterceptor sortSort s).endChan = [(p.handleInterceptor sortSort s).session] ∧
      (p.serve sortSort s).driverStage =
        some (p.handleDriver (p.handleInterceptor sortSort s).session)) ∧
    (∀ (pre post : List (Call Driver)) (c : Call Driver) (e : GoError),
      (p.handleDriver s1).calls = pre ++ c :: post →
      c.effect.result = Outcome.err e →
      (∀ c' ∈ post, c'.effect.result.returns = true) →
      (p.handleDriver s1).invoked =
        p.drivers.filter (fun d => anyTopicMatches d.topicExprs s1.Topic) ∧
      (p.handleDriver s1).session.outputChan =
        s1.outputChan ++ [(p.handleDriver s1).session.outbound.Data]) := by
  constructor
  · intro pre post c e hcalls hc hne hlater
    have hpass : ∀ c' ∈ c :: post, c'.effect.result.passes = true := by
      intro c' hc'
      rcases List.mem_cons.mp hc' with rfl | hm
      · rw [hc]
        simp [Outcome.passes, hne]
      · exact hlater c' hm
    obtain ⟨-, hcase⟩ := handleInterceptor_cases sortSort p s
    rcases hcase with ⟨hinv, -, hend, -⟩ | ⟨l, c1, hl, -, hd, -⟩ | ⟨l, c1, v1, hl, -, hp, -⟩ |
        ⟨hf, -⟩
    · exact ⟨hinv, hend, (serve_of_endChan_cons sortSort p s _ [] hend).1⟩
    · exact absurd hd
        (passes_not_drop (hpass c1 (last_mem_tail_of_split (hl.symm.trans hcalls)))).1
    · exact absurd hp
        ((passes_not_drop (hpass c1 (last_mem_tail_of_split (hl.symm.trans hcalls)))).2 v1)
    · rw [hff] at hf
      exact absurd hf (by simp)
  · intro pre post c e hcalls hc hlater
    have hret : ∀ c' ∈ c :: post, c'.effect.result.returns = true := by
      intro c' hc'
      rcases List.mem_cons.mp hc' with rfl | hm
      · rw [hc]
        rfl
      · exact hlater c' hm
    obtain ⟨-, -, hcase⟩ := handleDriver_cases p s1
    rcases hcase with ⟨hinv, -, hout, -⟩ | ⟨l, c1, v1, hl, -, hp, -⟩ | ⟨hf, -⟩
    · exact ⟨hinv, hout⟩
    · have := hret c1 (last_mem_tail_of_split (hl.symm.trans hcalls))
      rw [hp] at this
      exact absurd this (by simp [Outcome.returns])
    · rw [hff] at hf
      exact absurd hf (by simp)

/-- C8 as amended, at a pipeline whose interceptors and drivers all return
errors: after the error of `A` the interceptor `B` is still called and the
session forwarded; after the error of `D1` the next matching driver `D2` is
still called and the reply sent; the errors are logged. -/
theorem handler_errors_continue_amended_witness :
    ((pipelineErrors.handleInterceptor sortSmall sessionX).invoked.map Interceptor.name
        = ["A", "B"] ∧
      (pipelineErrors.handleInterceptor sortSmall sessionX).errors
        = [GoError.new "boom", GoError.new "late"] ∧
      (pipelineErrors.handleDriver sessionX).invoked.map Driver.name = ["D1", "D2"] ∧
      (pipelineErrors.handleDriver sessionX).errors
        = [GoError.new "bang", GoError.new "last"]) ∧
    ((pipelineErrors.handleInterceptor sortSmall sessionX).invoked
        = sortSmall (matchingInterceptors pipelineErrors sessionX) ∧
      (pipelineErrors.handleInterceptor sortSmall sessionX).endChan
        = [(pipelineErrors.handleInterceptor sortSmall sessionX).session] ∧
      (pipelineErrors.serve sortSmall sessionX).driverStage =
        some (pipelineErrors.handleDriver
          (pipelineErrors.handleInterceptor sortSmall sessionX).session)) ∧
    ((pipelineErrors.handleDriver sessionX).invoked =
        pipelineErrors.drivers.filter (fun d => anyTopicMatches d.topicExprs sessionX.Topic) ∧
      (pipelineErrors.handleDriver sessionX).session.outputChan =
        sessionX.outputChan ++ [(pipelineErrors.handleDriver sessionX).session.outbound.Data]) :=
  have h := handler_errors_continue_amended sortSmall pipelineErrors sessionX sessionX rfl
  ⟨⟨by decide, by decide, by decide, by decide⟩,
   h.1 []
     [⟨interceptorX "B" 20 (Outcome.err (GoError.new "late")),
       keep sessionX (Outcome.err (GoError.new "late"))⟩]
     ⟨interceptorX "A" 10 (Outcome.err (GoError.new "boom")),
      keep sessionX (Outcome.err (GoError.new "boom"))⟩
     (GoError.new "boom") rfl rfl (by decide)
     (fun c' hc' => by rw [List.mem_singleton.mp hc']; rfl),
   h.2 []
     [⟨driverOn "D2" "/x" (Outcome.err (GoError.new "last")),
       keep sessionX (Outcome.err (GoError.new "last"))⟩]
     ⟨driverOn "D1" "/x" (Outcome.err (GoError.new "bang")),
      keep sessionX (Outcome.err (GoError.new "bang"))⟩
     (GoError.new "bang") rfl rfl
     (fun c' hc' => by rw [List.mem_singleton.mp hc']; rfl)⟩

/-- C9, the input deliverer rejects atomically. When the frame carries no
payload, or the decoder of the input fails on its payload, the deliverer
returns a nil frame with a non-nil error, sends no session on the start channel
of the dispatcher, and consults no logic device. -/
theorem input_rejection (sortSort : InterceptorSlice → InterceptorSlice)
    (p : Pipeline) (now : Nat) (masterInput : InputDevice) (topic : String)
    (rawFrame : FramePacket)
    (h : rawFrame.Data = none ∨
      ∃ inputFrame e, rawFrame.Data = some inputFrame ∧
        masterInput.Decode inputFrame = Except.error e) :
    (p.newInputDeliverer sortSort now masterInput topic rawFrame).returned = true ∧
    (p.newInputDeliverer sortSort now masterInput topic rawFrame).frame = none ∧
    (p.newInputDeliverer sortSort now masterInput topic rawFrame).err ≠ none ∧
    (p.newInputDeliverer sortSort now masterInput topic rawFrame).startC = [] ∧
    (p.newInputDeliverer sortSort now masterInput topic rawFrame).consulted = [] := by
  rcases h with h | ⟨inputFrame, e, h, hdec⟩
  · simp [Pipeline.newInputDeliverer, h, errorsNew]
  · simp [Pipeline.newInputDeliverer, h, hdec, errorsWithMessage]

/-- C9 at a frame without payload and at a frame the decoder refuses. -/
theorem input_rejection_witness :
    ((pipelineErr.newInputDeliverer sortSmall 3 inputOne "/a" { Data := none }).returned = true ∧
      (pipelineErr.newInputDeliverer sortSmall 3 inputOne "/a" { Data := none }).frame = none ∧
      (pipelineErr.newInputDeliverer sortSmall 3 inputOne "/a" { Data := none }).err ≠ none ∧
      (pipelineErr.newInputDeliverer sortSmall 3 inputOne "/a" { Data := none }).startC = [] ∧
      (pipelineErr.newInputDeliverer sortSmall 3 inputOne "/a" { Data := none }).consulted = []) ∧
    ((pipelineErr.newInputDeliverer sortSmall 3 inputOne "/a" { Data := some [] }).returned = true ∧
      (pipelineErr.newInputDeliverer sortSmall 3 inputOne "/a" { Data := some [] }).frame = none ∧
      (pipelineErr.newInputDeliverer sortSmall 3 inputOne "/a" { Data := some [] }).err ≠ none ∧
      (pipelineErr.newInputDeliverer sortSmall 3 inputOne "/a" { Data := some [] }).startC = [] ∧
      (pipelineErr.newInputDeliverer sortSmall 3 inputOne "/a" { Data := some [] }).consulted = []) :=
  ⟨input_rejection sortSmall pipelineErr 3 inputOne "/a" { Data := none } (Or.inl rfl),
   input_rejection sortSmall pipelineErr 3 inputOne "/a" { Data := some [] }
     (Or.inr ⟨[], GoError.new "empty frame", rfl, rfl⟩)⟩

/-- C10 as stated fails. At a pipeline whose only interceptor writes the field
`reason` to the outbound data and then returns `ErrInterceptorDropped`, no
earlier interceptor wrote to outbound, and the reply holds `reason` beside
`error`: it is not the one-field mapping. -/
theorem drop_reply_counterexample :
    (pipelineReason.handleInterceptor sortSmall sessionX).invoked.map Interceptor.name = ["R"] ∧
    (pipelineReason.serve sortSmall sessionX).outputChan =
      [[("reason", Value.str "quota"), ("error", Value.str "InterceptorDropped")]] ∧
    (pipelineReason.serve sortSmall sessionX).outputChan ≠
      [[("error", Value.str "InterceptorDropped")]] := by
  decide

/-- C10 as amended. When a call of an interceptor's `Handle` returns
`ErrInterceptorDropped`, the one value sent on the reply channel of the session
is the outbound data of the session, which is the data the dropping handler
left with `error` bound to `InterceptorDropped`; when that data was still empty
(neither the dropping interceptor nor an earlier one wrote to outbound), the
reply is the one-field mapping of `error` to `InterceptorDropped`. -/
theorem drop_reply_amended (sortSort : InterceptorSlice → InterceptorSlice)
    (p : Pipeline) (s : EventSession)
    (pre post : List (Call Interceptor)) (c : Call Interceptor)
    (hcalls : (p.handleInterceptor sortSort s).calls = pre ++ c :: post)
    (hdrop : c.effect.result = Outcome.err ErrInterceptorDropped) :
    (p.serve sortSort s).outputChan =
      s.outputChan ++ [(p.handleInterceptor sortSort s).session.outbound.Data] ∧
    (p.handleInterceptor sortSort s).session.outbound.Data =
      c.effect.outbound.Data.put "error" (Value.str "InterceptorDropped") ∧
    JSONPacket.get (p.handleInterceptor sortSort s).session.outbound.Data "error" =
      some (Value.str "InterceptorDropped") ∧
    (c.effect.outbound.Data = [] →
      (p.serve sortSort s).outputChan =
        s.outputChan ++ [[("error", Value.str "InterceptorDropped")]]) := by
  obtain ⟨-, hcase⟩ := handleInterceptor_cases sortSort p s
  have hin : ∀ l : List (Call Interceptor), (∀ c' ∈ l, c'.effect.result.passes = true) →
      c ∉ l := by
    intro l hl hc
    exact (passes_not_drop (hl c hc)).1 hdrop
  have hlast : ∀ (l : List (Call Interceptor)) (c1 : Call Interceptor),
      (p.handleInterceptor sortSort s).calls = l ++ [c1] →
      (∀ c' ∈ l, c'.effect.result.passes = true) → c1 = c := by
    intro l c1 hl hpass
    have hpost : post = [] := by
      by_contra hne
      exact hin l hpass (mem_init_of_split (hl.symm.trans hcalls) hne)
    subst hpost
    exact (last_of_split (hl.symm.trans hcalls)).2
  rcases hcase with ⟨-, hall, -⟩ | ⟨l, c1, hl, hpass, -, hout, hchan, hend, -⟩ |
      ⟨l, c1, v, hl, hpass, hp, -⟩ | ⟨-, l, c1, e, hl, hpass, he, hne, -⟩
  · exact absurd (by rw [hcalls]; simp) (hin _ hall)
  · have hc1 := hlast l c1 hl hpass
    subst hc1
    obtain ⟨-, hserve⟩ := serve_of_endChan_nil sortSort p s hend
    have hdata : (p.handleInterceptor sortSort s).session.outbound.Data =
        c1.effect.outbound.Data.put "error" (Value.str "InterceptorDropped") := by
      rw [hout]; rfl
    refine ⟨by rw [hserve, hchan], hdata, by rw [hdata]; exact get_put _ _ _, ?_⟩
    intro hempty
    rw [hserve, hchan, hdata, hempty]
    rfl
  · have hc1 := hlast l c1 hl hpass
    subst hc1
    rw [hdrop] at hp
    exact absurd hp (by simp)
  · have hc1 := hlast l c1 hl hpass
    subst hc1
    rw [hdrop] at he
    simp only [Outcome.err.injEq] at he
    exact absurd he.symm hne

/-- C10 as amended, at the pipeline where `A` drops without writing: the reply
is the one-field mapping. -/
theorem drop_reply_amended_witness :
    (pipelineDrop.serve sortSmall sessionX).outputChan =
      [[("error", Value.str "InterceptorDropped")]] :=
  (drop_reply_amended sortSmall pipelineDrop sessionX []
     [] ⟨interceptorX "A" 10 (Outcome.err ErrInterceptorDropped),
         keep sessionX (Outcome.err ErrInterceptorDropped)⟩ rfl rfl).2.2.2 rfl

/-- C11 as stated fails. At a register with a lifecycle-capable logic device `L`
attached to its input, `Start` calls `OnStart` on the plugin, the output, the
lifecycle-capable driver and the input, and on nothing else: the calls are not
the five groups the claim lists, and `L` gets no `OnStart`. -/
theorem start_order_counterexample :
    startCalls (Pipeline.Start registerDemo) =
      [(Group.plugins, "P"), (Group.outputs, "O"), (Group.drivers, "D"), (Group.inputs, "I")] ∧
    claimedStartCalls registerDemo =
      [(Group.plugins, "P"), (Group.outputs, "O"), (Group.drivers, "D"), (Group.inputs, "I"),
       (Group.logics, "L")] ∧
    startCalls (Pipeline.Start registerDemo) ≠ claimedStartCalls registerDemo ∧
    StartEvent.OnStart Group.logics "L" ∉ Pipeline.Start registerDemo := by
  decide

/-- C11 as amended. For every register, the `OnStart` calls of `Start` are the
lifecycle-capable plugins, outputs, drivers and inputs, group by group in that
order and each group in its registered order; no logic device gets an `OnStart`
call; the events of `Start` come in sequence, the hooks to run first before
every `OnStart`, the `OnStart` calls of the inputs before every launch of a
`Serve` goroutine, and the hooks to run after behind everything; the hooks of
both lists are called in their registered order, and one `Serve` goroutine is
launched per input, in registered order. -/
theorem start_order_amended (p : Register) :
    startCalls (Pipeline.Start p) =
      capable Group.plugins p.plugins ++ capable Group.outputs p.outputs
        ++ capable Group.drivers p.drivers
        ++ capable Group.inputs (p.inputs.map InputComponent.component) ∧
    (∀ name, StartEvent.OnStart Group.logics name ∉ Pipeline.Start p) ∧
    (Pipeline.Start p).Pairwise (fun a b => a.phase ≤ b.phase) ∧
    hooksCalledFirst (Pipeline.Start p) = p.startBeforeHooks ∧
    hooksCalledAfter (Pipeline.Start p) = p.startAfterHooks ∧
    servesLaunched (Pipeline.Start p) = p.inputs.map InputComponent.uuid := by
  have hphase :
      (Pipeline.Start p).Pairwise (fun a b => a.phase ≤ b.phase) ∧
      ∀ e ∈ Pipeline.Start p, 0 ≤ e.phase := by
    simp only [Pipeline.Start, List.append_assoc]
    refine sorted_phase_append (Nat.le_succ 0) ?_ ?_
    · intro e he
      obtain ⟨x, -, hx⟩ := (mem_ForEach _ e _).mp he
      rw [List.mem_singleton.mp hx]; rfl
    refine sorted_phase_append (Nat.le_succ 1)
      (phase_ForEach_startFn Group.plugins 1 id (fun _ => rfl) p.plugins) ?_
    refine sorted_phase_append (Nat.le_succ 2)
      (phase_ForEach_startFn Group.outputs 2 id (fun _ => rfl) p.outputs) ?_
    refine sorted_phase_append (Nat.le_succ 3)
      (phase_ForEach_startFn Group.drivers 3 id (fun _ => rfl) p.drivers) ?_
    refine sorted_phase_append (by decide : 4 ≤ 6)
      (phase_ForEach_startFn Group.inputs 4 InputComponent.component (fun _ => rfl) p.inputs) ?_
    refine sorted_phase_append (Nat.le_succ 6) ?_ ?_
    · intro e he
      obtain ⟨x, -, hx⟩ := (mem_ForEach _ e _).mp he
      rw [List.mem_singleton.mp hx]; rfl
    have hafter : ∀ e ∈ ForEach p.startAfterHooks (fun it => [StartEvent.startAfterHook it]),
        e.phase = 7 := by
      intro e he
      obtain ⟨x, -, hx⟩ := (mem_ForEach _ e _).mp he
      rw [List.mem_singleton.mp hx]; rfl
    exact ⟨sorted_of_phase hafter, fun e he => le_of_eq (hafter e he).symm⟩
  refine ⟨startCalls_Start p, ?_, hphase.1, ?_, ?_, ?_⟩
  · intro name hmem
    have hcall : (Group.logics, name) ∈ startCalls (Pipeline.Start p) := by
      unfold startCalls
      exact List.mem_filterMap.mpr ⟨_, hmem, rfl⟩
    rw [startCalls_Start] at hcall
    simp [capable] at hcall
  · simp only [Pipeline.Start, hooksCalledFirst, List.filterMap_append]
    rw [filterMap_ForEach_map _ _ id (fun _ => by rfl),
      filterMap_ForEach_nil _ (startFn Group.plugins),
      filterMap_ForEach_nil _ (startFn Group.outputs),
      filterMap_ForEach_nil _ (startFn Group.drivers),
      filterMap_ForEach_nil _ (fun it : InputComponent => startFn Group.inputs it.component),
      filterMap_ForEach_nil _ (fun it : InputComponent => [StartEvent.Serve it.uuid]),
      filterMap_ForEach_nil _ (fun it : String => [StartEvent.startAfterHook it])]
    · simp
    all_goals
      intro x
      first
        | rfl
        | (unfold startFn CheckTimeout; split <;> rfl)
  · simp only [Pipeline.Start, hooksCalledAfter, List.filterMap_append]
    rw [filterMap_ForEach_nil _ (fun it : String => [StartEvent.startBeforeHook it]),
      filterMap_ForEach_nil _ (startFn Group.plugins),
      filterMap_ForEach_nil _ (startFn Group.outputs),
      filterMap_ForEach_nil _ (startFn Group.drivers),
      filterMap_ForEach_nil _ (fun it : InputComponent => startFn Group.inputs it.component),
      filterMap_ForEach_nil _ (fun it : InputComponent => [StartEvent.Serve it.uuid]),
      filterMap_ForEach_map _ _ id (fun _ => by rfl)]
    · simp
    all_goals
      intro x
      first
        | rfl
        | (unfold startFn CheckTimeout; split <;> rfl)
  · simp only [Pipeline.Start, servesLaunched, List.filterMap_append]
    rw [filterMap_ForEach_nil _ (fun it : String => [StartEvent.startBeforeHook it]),
      filterMap_ForEach_nil _ (startFn Group.plugins),
      filterMap_ForEach_nil _ (startFn Group.outputs),
      filterMap_ForEach_nil _ (startFn Group.drivers),
      filterMap_ForEach_nil _ (fun it : InputComponent => startFn Group.inputs it.component),
      filterMap_ForEach_map _ _ InputComponent.uuid (fun _ => by rfl),
      filterMap_ForEach_nil _ (fun it : String => [StartEvent.startAfterHook it])]
    · simp
    all_goals
      intro x
      first
        | rfl
        | (unfold startFn CheckTimeout; split <;> rfl)

end Gecko
